import Mathlib

/-!
Verification of the `mcp-wallet-bsv` payment construction pipeline.

The definitions below are a shallow embedding of the repository's
TypeScript sources:

* `src/bsv/transaction-builder.ts` — UTXO selection, fee estimation and
  transaction assembly (`selectUTXOs`, `estimateFee`, `buildTransaction`);
* `src/bsv/network-client.ts` — the WhatsOnChain client with its bounded
  retry policy (`getUTXOs`, `broadcastTransaction`, `getBackoffDelay`,
  `isRetryableError`, `DEFAULT_RETRY_CONFIG`);
* `src/wallet/crypto.ts` (unnamed part_004) — the credential vault
  (`encryptWif`, `decryptWif`, scrypt key derivation);
* `src/x402/payment-creator.ts` — the X402 payment proof codec
  (`createPaymentPayloadFromHex`, `extractTransactionFromPayload`).

JavaScript numbers that hold satoshi amounts are embedded as `Int`;
fee rates (which may be fractional, e.g. `0.5`) as `ℚ`; `Math.ceil`
as `Int.ceil`.  Spanish error-message strings are kept verbatim.
-/

namespace TxBuilder

/-- Embedding of the `UTXOWithSource` interface from `src/types/index.ts`
(the fields consumed by the transaction builder). -/
structure UTXOWithSource where
  txid : String
  vout : Nat
  value : Int
  sourceTransactionHex : String
deriving DecidableEq, Repr

/-- Embedding of the `SelectedUTXOs` interface from `src/types/index.ts`. -/
structure SelectedUTXOs where
  utxos : List UTXOWithSource
  totalValue : Int
  change : Int
  fee : Int
deriving DecidableEq, Repr

/-- `estimateFee` from `src/bsv/transaction-builder.ts`:
`Math.ceil((10 + numInputs*148 + numOutputs*34) * feeRate)`. -/
def estimateFee (numInputs numOutputs : Nat) (feeRate : ℚ) : Int :=
  let headerSize : ℚ := 10
  let inputSize : ℚ := 148
  let outputSize : ℚ := 34
  let estimatedSize : ℚ := headerSize + numInputs * inputSize + numOutputs * outputSize
  ⌈estimatedSize * feeRate⌉

/-- The error message thrown by `selectUTXOs` on an empty input array. -/
def noUTXOsMsg : String := "No hay UTXOs disponibles"

/-- The `InsufficientFunds` message thrown by `selectUTXOs`; it interpolates
the minimum required amount and the available total. -/
def insufficientFundsMsg (minRequired totalValue : Int) : String :=
  "Fondos insuficientes. Necesitas " ++ toString minRequired ++
    " satoshis, pero solo tienes " ++ toString totalValue ++ " satoshis disponibles"

/-- One insertion step of a stable sort by `value` descending: the inserted
element goes in front of the first element whose value does not exceed it. -/
def insertDesc (u : UTXOWithSource) : List UTXOWithSource → List UTXOWithSource
  | [] => [u]
  | v :: vs => if v.value ≤ u.value then u :: v :: vs else v :: insertDesc u vs

/-- Embedding of `[...utxos].sort((a, b) => b.value - a.value)`.  ECMAScript
guarantees `Array.prototype.sort` is stable and, for a consistent comparator,
the stable descending order is unique, so a stable insertion sort by value
descending is the (unique) faithful embedding of this call. -/
def jsSortValueDesc : List UTXOWithSource → List UTXOWithSource
  | [] => []
  | x :: xs => insertDesc x (jsSortValueDesc xs)

/-- The accumulation loop of `selectUTXOs`: push the next UTXO, recompute the
fee for `selected.length` inputs and 2 outputs, and return as soon as
`totalValue >= amount + estimatedFee`; on exhaustion throw the
insufficient-funds error built from all accumulated UTXOs. -/
def selectLoop (amount : Int) (feeRate : ℚ) :
    List UTXOWithSource → List UTXOWithSource → Int → Except String SelectedUTXOs
  | [], selected, totalValue =>
      .error (insufficientFundsMsg (amount + estimateFee selected.length 2 feeRate) totalValue)
  | u :: rest, selected, totalValue =>
      let selected2 := selected ++ [u]
      let totalValue2 := totalValue + u.value
      let estimatedFee := estimateFee selected2.length 2 feeRate
      if totalValue2 ≥ amount + estimatedFee then
        .ok ⟨selected2, totalValue2, totalValue2 - amount - estimatedFee, estimatedFee⟩
      else
        selectLoop amount feeRate rest selected2 totalValue2

/-- `selectUTXOs` from `src/bsv/transaction-builder.ts`.  The thrown
JavaScript errors are embedded as `Except.error` carrying the exact message
string.  The fee-rate default in the source is `0.5`. -/
def selectUTXOs (utxos : List UTXOWithSource) (amount : Int) (feeRate : ℚ) :
    Except String SelectedUTXOs :=
  if utxos.length = 0 then .error noUTXOsMsg
  else selectLoop amount feeRate (jsSortValueDesc utxos) [] 0

/-- `selectUTXOs` with the caller's array state made explicit: the source
sorts the spread copy `[...utxos]`, never the argument array, so the array
observed by the caller after the call (second component) is the argument
unchanged. -/
def selectUTXOsCall (utxos : List UTXOWithSource) (amount : Int) (feeRate : ℚ) :
    Except String SelectedUTXOs × List UTXOWithSource :=
  if utxos.length = 0 then (.error noUTXOsMsg, utxos)
  else
    let copy := utxos
    let sortedUTXOs := jsSortValueDesc copy
    (selectLoop amount feeRate sortedUTXOs [] 0, utxos)

/-- Total value of a list of UTXOs. -/
def valueSum (l : List UTXOWithSource) : Int := (l.map (·.value)).sum

/-- `selectOutputs` as the specification words it ("sort available outputs by
value descending; accumulate outputs one at a time; after each addition,
recompute the required fee assuming exactly 2 produced outputs; stop as soon
as accumulated value ≥ targetAmount + currentFee"), stated by searching for
the first covering prefix of the sorted list.  Used to compare the source
algorithm against the spec. -/
def specGo (amount : Int) (feeRate : ℚ) (sorted : List UTXOWithSource) (k : Nat) :
    Except String SelectedUTXOs :=
  if h : k < sorted.length then
    let total := valueSum (sorted.take (k + 1))
    let fee := estimateFee (k + 1) 2 feeRate
    if amount + fee ≤ total then
      .ok ⟨sorted.take (k + 1), total, total - amount - fee, fee⟩
    else specGo amount feeRate sorted (k + 1)
  else
    .error (insufficientFundsMsg (amount + estimateFee sorted.length 2 feeRate) (valueSum sorted))
termination_by sorted.length - k

/-- `selectOutputs` as the specification words it ("sort available outputs by
value descending; accumulate outputs one at a time; after each addition,
recompute the required fee assuming exactly 2 produced outputs; stop as soon
as accumulated value ≥ targetAmount + currentFee; fail with
`InsufficientFunds` when exhausted"), stated over prefixes of the sorted
list via `specGo`.  Used to compare the source algorithm against the spec. -/
def selectOutputsSpec (available : List UTXOWithSource) (amount : Int) (feeRate : ℚ) :
    Except String SelectedUTXOs :=
  if available.length = 0 then .error noUTXOsMsg
  else specGo amount feeRate (jsSortValueDesc available) 0

@[simp] theorem valueSum_nil : valueSum [] = 0 := rfl

@[simp] theorem valueSum_cons (u : UTXOWithSource) (l : List UTXOWithSource) :
    valueSum (u :: l) = u.value + valueSum l := by
  simp [valueSum]

@[simp] theorem valueSum_append (l₁ l₂ : List UTXOWithSource) :
    valueSum (l₁ ++ l₂) = valueSum l₁ + valueSum l₂ := by
  simp [valueSum]

theorem insertDesc_perm (u : UTXOWithSource) (l : List UTXOWithSource) :
    (insertDesc u l).Perm (u :: l) := by
  induction l with
  | nil => simp [insertDesc]
  | cons v vs ih =>
      rw [insertDesc]
      split
      · exact List.Perm.refl _
      · exact (ih.cons v).trans (List.Perm.swap u v vs)

theorem jsSort_perm (l : List UTXOWithSource) : (jsSortValueDesc l).Perm l := by
  induction l with
  | nil => exact List.Perm.refl _
  | cons x xs ih => exact (insertDesc_perm x (jsSortValueDesc xs)).trans (ih.cons x)

theorem jsSort_length (l : List UTXOWithSource) : (jsSortValueDesc l).length = l.length :=
  (jsSort_perm l).length_eq

theorem jsSort_valueSum (l : List UTXOWithSource) : valueSum (jsSortValueDesc l) = valueSum l := by
  unfold valueSum
  exact ((jsSort_perm l).map (·.value)).sum_eq

theorem jsSort_mem (l : List UTXOWithSource) (u : UTXOWithSource) :
    u ∈ jsSortValueDesc l ↔ u ∈ l :=
  (jsSort_perm l).mem_iff

/-- Inversion of the accumulation loop on success: the fee is the estimate
for the selected input count with 2 outputs, the stop guard held, the change
is the exact remainder, the total is the value of the selection, and every
selected UTXO comes from the initial accumulator or the remaining list. -/
theorem selectLoop_ok (a : Int) (r : ℚ) :
    ∀ (rest selected : List UTXOWithSource) (total : Int) (sel : SelectedUTXOs),
      selectLoop a r rest selected total = .ok sel →
      sel.fee = estimateFee sel.utxos.length 2 r ∧
      a + sel.fee ≤ sel.totalValue ∧
      sel.change = sel.totalValue - a - sel.fee ∧
      (total = valueSum selected → sel.totalValue = valueSum sel.utxos) ∧
      ∀ u ∈ sel.utxos, u ∈ selected ∨ u ∈ rest := by
  intro rest
  induction rest with
  | nil =>
      intro selected total sel h
      simp [selectLoop] at h
  | cons u rest2 ih =>
      intro selected total sel h
      rw [selectLoop] at h
      by_cases hg : total + u.value ≥ a + estimateFee (selected ++ [u]).length 2 r
      · rw [if_pos hg] at h
        obtain rfl : sel =
            ⟨selected ++ [u], total + u.value,
              total + u.value - a - estimateFee (selected ++ [u]).length 2 r,
              estimateFee (selected ++ [u]).length 2 r⟩ := by
          exact (Except.ok.inj h).symm
        refine ⟨rfl, hg, rfl, ?_, ?_⟩
        · intro ht; simp [ht]
        · intro v hv
          rcases List.mem_append.mp hv with hv | hv
          · exact Or.inl hv
          · exact Or.inr (by simpa using Or.inl (List.mem_singleton.mp hv))
      · rw [if_neg hg] at h
        obtain ⟨h1, h2, h3, h4, h5⟩ := ih (selected ++ [u]) (total + u.value) sel h
        refine ⟨h1, h2, h3, ?_, ?_⟩
        · intro ht
          exact h4 (by simp [ht])
        · intro v hv
          rcases h5 v hv with hv | hv
          · rcases List.mem_append.mp hv with hv | hv
            · exact Or.inl hv
            · exact Or.inr (by simpa using Or.inl (List.mem_singleton.mp hv))
          · exact Or.inr (List.mem_cons_of_mem u hv)

/-- The source loop, started on the `k`-th tail of the sorted list with the
first `k` elements accumulated, computes exactly the spec's prefix search. -/
theorem selectLoop_eq_specGo (a : Int) (r : ℚ) (sorted : List UTXOWithSource) :
    ∀ (rest selected : List UTXOWithSource) (k : Nat),
      rest = sorted.drop k → selected = sorted.take k → k ≤ sorted.length →
      selectLoop a r rest selected (valueSum selected) = specGo a r sorted k := by
  intro rest
  induction rest with
  | nil =>
      intro selected k hdrop htake hk
      have hlen : sorted.length ≤ k := by
        have := congrArg List.length hdrop
        simp [List.length_drop] at this
        omega
      have hk' : k = sorted.length := le_antisymm hk hlen
      have hsel : selected = sorted := by
        rw [htake, hk']; exact List.take_length sorted
      rw [specGo]
      rw [dif_neg (by omega)]
      simp [selectLoop, hsel, hk']
  | cons u rest2 ih =>
      intro selected k hdrop htake hk
      have hklt : k < sorted.length := by
        have := congrArg List.length hdrop
        simp [List.length_drop] at this
        omega
      have htake1 : sorted.take (k + 1) = selected ++ [u] := by
        rw [htake, List.take_add, ← hdrop]
        simp
      have hdrop1 : sorted.drop (k + 1) = rest2 := by
        have : sorted.drop (k + 1) = (sorted.drop k).drop 1 := by
          rw [List.drop_drop]
        rw [this, ← hdrop]
        simp
      have hlen1 : (selected ++ [u]).length = k + 1 := by
        rw [← htake1, List.length_take]
        omega
      rw [selectLoop, specGo, dif_pos hklt]
      simp only [htake1, hlen1]
      by_cases hg : a + estimateFee (k + 1) 2 r ≤ valueSum selected + u.value
      · rw [if_pos (by simpa using hg), if_pos (by simpa [htake1] using hg)]
        simp [htake1]
      · rw [if_neg (by simpa using hg), if_neg (by simpa [htake1] using hg)]
        have := ih (selected ++ [u]) (k + 1) hdrop1.symm htake1.symm (by omega)
        simpa using this

/-- The source `selectUTXOs` coincides with the spec's description of
`selectOutputs` on every input. -/
theorem selectUTXOs_eq_spec (l : List UTXOWithSource) (a : Int) (r : ℚ) :
    selectUTXOs l a r = selectOutputsSpec l a r := by
  unfold selectUTXOs selectOutputsSpec
  by_cases h : l.length = 0
  · simp [h]
  · rw [if_neg h, if_neg h]
    have := selectLoop_eq_specGo a r (jsSortValueDesc l) (jsSortValueDesc l) [] 0 rfl rfl
      (Nat.zero_le _)
    simpa using this

/-- If every prefix of the sorted list fails the stop guard, the spec search
(and hence the loop) ends in the insufficient-funds error built from the
whole list. -/
theorem specGo_error (a : Int) (r : ℚ) (sorted : List UTXOWithSource)
    (hall : ∀ k, k < sorted.length →
      valueSum (sorted.take (k + 1)) < a + estimateFee (k + 1) 2 r) :
    ∀ k, specGo a r sorted k =
      .error (insufficientFundsMsg (a + estimateFee sorted.length 2 r) (valueSum sorted)) := by
  intro k
  by_cases h : k < sorted.length
  · rw [specGo, dif_pos h]
    rw [if_neg (by have := hall k h; omega)]
    exact specGo_error a r sorted hall (k + 1)
  · rw [specGo, dif_neg h]
termination_by k => sorted.length - k

theorem estimateFee_nonneg (n m : Nat) (r : ℚ) (hr : 0 ≤ r) : 0 ≤ estimateFee n m r := by
  unfold estimateFee
  simp only
  refine Int.ceil_nonneg (mul_nonneg ?_ hr)
  positivity

/-- Embedding of one transaction input as assembled by `buildTransaction`:
the parsed source transaction is abstracted to the satoshi values of its
outputs (the only fields the accounting depends on). -/
structure TxInput where
  sourceTxOutputs : List Int
  sourceOutputIndex : Nat
  sequence : Nat
deriving DecidableEq, Repr

/-- Embedding of a produced output: a P2PKH lock for an address plus value. -/
structure TxOutput where
  lockAddress : String
  satoshis : Int
deriving DecidableEq, Repr

/-- Embedding of the assembled `Transaction` (inputs/outputs only; the
unlocking scripts written by `tx.sign()` carry no satoshi values). -/
structure BsvTransaction where
  inputs : List TxInput
  outputs : List TxOutput
deriving DecidableEq, Repr

/-- The wrapper applied by `buildTransaction`'s catch block to any error
thrown inside it. -/
def buildTxErr (e : String) : String := "Error al construir transacción: " ++ e

/-- `buildTransaction` from `src/bsv/transaction-builder.ts`.
`parseTx` abstracts `Transaction.fromHex` (giving the satoshi values of the
parsed transaction's outputs) and `derivedChangeAddress` abstracts
`privateKey.toPublicKey().toAddress(...)`, both external SDK calls. -/
def buildTransaction (parseTx : String → List Int) (derivedChangeAddress : String)
    (utxos : List UTXOWithSource) (payToAddress : String) (amount : Int)
    (changeAddress : Option String) (feeRate : ℚ) : Except String BsvTransaction :=
  if amount ≤ 0 then .error (buildTxErr "El monto debe ser mayor a 0")
  else if utxos.length = 0 then .error (buildTxErr noUTXOsMsg)
  else
    match selectUTXOs utxos amount feeRate with
    | .error e => .error (buildTxErr e)
    | .ok selected =>
        let inputs := selected.utxos.map
          (fun u => TxInput.mk (parseTx u.sourceTransactionHex) u.vout 4294967295)
        let payOutput : TxOutput := ⟨payToAddress, amount⟩
        let changeOutputs : List TxOutput :=
          if 0 < selected.change then
            [⟨changeAddress.getD derivedChangeAddress, selected.change⟩]
          else []
        .ok ⟨inputs, payOutput :: changeOutputs⟩

/-- Value consumed by an input: the satoshis of the referenced output of its
source transaction. -/
def txInputValue (i : TxInput) : Int := i.sourceTxOutputs.getD i.sourceOutputIndex 0

/-- Sum of the values consumed by a transaction's inputs. -/
def txInputSum (tx : BsvTransaction) : Int := (tx.inputs.map txInputValue).sum

/-- Sum of the values of a transaction's produced outputs. -/
def txOutputSum (tx : BsvTransaction) : Int := (tx.outputs.map (·.satoshis)).sum

end TxBuilder

open TxBuilder

/-- Claim C4: `selectUTXOs` follows the largest-first greedy algorithm of the
spec (sort by value descending, accumulate one output at a time, after each
addition recompute the fee for exactly 2 produced outputs, stop as soon as
the accumulated value covers target plus current fee); consequently every
successful selection has total value ≥ target + fee of the selection, and on
available outputs [50000, 30000, 20000] with target 40000 and fee rate 0.5
it selects exactly the 50000 output with change 50000 − 40000 − fee(1,2). -/
theorem claim_C4_selectUTXOs_greedy :
    (∀ (l : List UTXOWithSource) (a : Int) (r : ℚ),
        selectUTXOs l a r = selectOutputsSpec l a r) ∧
    (∀ (l : List UTXOWithSource) (a : Int) (r : ℚ) (sel : SelectedUTXOs),
        selectUTXOs l a r = .ok sel →
        sel.fee = estimateFee sel.utxos.length 2 r ∧ a + sel.fee ≤ sel.totalValue) ∧
    (selectUTXOs [⟨"a", 0, 50000, "s1"⟩, ⟨"b", 0, 30000, "s2"⟩, ⟨"c", 0, 20000, "s3"⟩]
        40000 (1/2) =
      .ok ⟨[⟨"a", 0, 50000, "s1"⟩], 50000,
        50000 - 40000 - estimateFee 1 2 (1/2), estimateFee 1 2 (1/2)⟩) := by
  refine ⟨selectUTXOs_eq_spec, ?_, ?_⟩
  · intro l a r sel h
    unfold selectUTXOs at h
    by_cases hl : l.length = 0
    · simp [hl] at h
    · rw [if_neg hl] at h
      obtain ⟨h1, h2, _, _, _⟩ := selectLoop_ok a r (jsSortValueDesc l) [] 0 sel h
      exact ⟨h1, h2⟩
  · norm_num [selectUTXOs, selectLoop, jsSortValueDesc, insertDesc, estimateFee]

/-- Witness for claim C4 at Scenario A's input: the proven cover bound,
instantiated at the concrete selection. -/
theorem claim_C4_witness : (40000 : Int) + estimateFee 1 2 (1/2) ≤ 50000 := by
  have h := claim_C4_selectUTXOs_greedy.2.1
    [⟨"a", 0, 50000, "s1"⟩, ⟨"b", 0, 30000, "s2"⟩, ⟨"c", 0, 20000, "s3"⟩] 40000 (1/2)
    ⟨[⟨"a", 0, 50000, "s1"⟩], 50000,
      50000 - 40000 - estimateFee 1 2 (1/2), estimateFee 1 2 (1/2)⟩
    claim_C4_selectUTXOs_greedy.2.2
  simpa using h.2

/-- Claim C9, counterexample: with available outputs of values 150 and 10,
target 30, fee rate 1/2, the total of all outputs (160) is strictly below
the minimum required when every output is used (30 + fee(2 inputs, 2
outputs) = 217), yet `selectUTXOs` succeeds — the largest output alone
already covers target plus its smaller one-input fee — rather than failing
with `InsufficientFunds`. -/
theorem claim_C9_counterexample :
    valueSum [⟨"a", 0, 150, "s1"⟩, ⟨"b", 0, 10, "s2"⟩] < 30 + estimateFee 2 2 (1/2) ∧
    selectUTXOs [⟨"a", 0, 150, "s1"⟩, ⟨"b", 0, 10, "s2"⟩] 30 (1/2) =
      .ok ⟨[⟨"a", 0, 150, "s1"⟩], 150, 7, 113⟩ := by
  constructor
  · norm_num [valueSum, estimateFee]
  · norm_num [selectUTXOs, selectLoop, jsSortValueDesc, insertDesc, estimateFee]

/-- Claim C9, amended: for every non-empty list of available outputs on
which the greedy loop exhausts all outputs — every prefix of the
descending-sorted list falls short of target plus its running fee —
`selectUTXOs` fails with the `InsufficientFunds` error whose message states
the minimum required (target + fee using every output) and the total
available; the empty list instead fails with the distinct
"no UTXOs available" error that carries no amounts. -/
theorem claim_C9_insufficientFunds :
    (∀ (l : List UTXOWithSource) (a : Int) (r : ℚ),
        l ≠ [] →
        (∀ k, k < l.length →
          valueSum ((jsSortValueDesc l).take (k + 1)) < a + estimateFee (k + 1) 2 r) →
        selectUTXOs l a r =
          .error (insufficientFundsMsg (a + estimateFee l.length 2 r) (valueSum l))) ∧
    (∀ (a : Int) (r : ℚ), selectUTXOs [] a r = .error noUTXOsMsg) := by
  constructor
  · intro l a r hne hall
    rw [selectUTXOs_eq_spec]
    unfold selectOutputsSpec
    rw [if_neg (by simpa using hne)]
    rw [specGo_error a r (jsSortValueDesc l)
      (by intro k hk; exact hall k (by rwa [jsSort_length] at hk)) 0]
    rw [jsSort_length, jsSort_valueSum]
  · intro a r; rfl

/-- Witness for claim C9 at a concrete exhausted input. -/
theorem claim_C9_witness :
    selectUTXOs [⟨"a", 0, 10, "s1"⟩, ⟨"b", 0, 5, "s2"⟩] 1000 (1/2) =
      .error (insufficientFundsMsg (1000 + estimateFee 2 2 (1/2))
        (valueSum [⟨"a", 0, 10, "s1"⟩, ⟨"b", 0, 5, "s2"⟩])) := by
  have h := claim_C9_insufficientFunds.1 [⟨"a", 0, 10, "s1"⟩, ⟨"b", 0, 5, "s2"⟩] 1000 (1/2)
    (by simp)
    (by
      intro k hk
      simp only [List.length_cons, List.length_nil] at hk
      interval_cases k <;>
        norm_num [jsSortValueDesc, insertDesc, valueSum, estimateFee])
  simpa using h

/-- Claim C10: `selectUTXOs` sorts a spread copy of the caller's array, so
the array the caller observes after the call is element-for-element the
array passed in, whether the call succeeds or fails; the sorted copy it
works on is a permutation of that array. -/
theorem claim_C10_input_array_unchanged :
    ∀ (l : List UTXOWithSource) (a : Int) (r : ℚ),
      (selectUTXOsCall l a r).2 = l ∧
      (jsSortValueDesc l).Perm l ∧
      (selectUTXOsCall l a r).1 = selectUTXOs l a r := by
  intro l a r
  refine ⟨?_, jsSort_perm l, ?_⟩ <;>
  · simp only [selectUTXOsCall, selectUTXOs]
    split <;> rfl


/-- Claim C5: every successfully built transaction conserves value — the sum
of consumed input values equals the sum of produced output values plus a
fee ≥ 0 — and the change output is omitted entirely when the computed change
is not strictly positive (the output list is just the payment output; no
zero- or dust-valued change output is emitted), while a change output with
exactly the computed change is added whenever change > 0. -/
theorem claim_C5_build_conservation :
    ∀ (parseTx : String → List Int) (derivedAddr : String)
      (utxos : List UTXOWithSource) (payTo : String) (amount : Int)
      (changeAddr : Option String) (r : ℚ) (tx : BsvTransaction),
      0 ≤ r →
      (∀ u ∈ utxos, (parseTx u.sourceTransactionHex).getD u.vout 0 = u.value) →
      buildTransaction parseTx derivedAddr utxos payTo amount changeAddr r = .ok tx →
      ∃ fee change : Int,
        txInputSum tx = txOutputSum tx + fee ∧
        0 ≤ fee ∧ 0 ≤ change ∧
        (if 0 < change then
            tx.outputs = [⟨payTo, amount⟩, ⟨changeAddr.getD derivedAddr, change⟩]
          else tx.outputs = [⟨payTo, amount⟩]) := by
  intro parseTx derivedAddr utxos payTo amount changeAddr r tx hr hparse hb
  unfold buildTransaction at hb
  by_cases h1 : amount ≤ 0
  · simp [h1] at hb
  rw [if_neg h1] at hb
  by_cases h2 : utxos.length = 0
  · rw [if_pos h2] at hb
    simp at hb
  rw [if_neg h2] at hb
  cases hsel : selectUTXOs utxos amount r with
  | error e => rw [hsel] at hb; simp at hb
  | ok selected =>
      rw [hsel] at hb
      simp only [Except.ok.injEq] at hb
      subst hb
      unfold selectUTXOs at hsel
      rw [if_neg h2] at hsel
      obtain ⟨hfee, hguard, hchange, htot, hmem⟩ :=
        selectLoop_ok amount r (jsSortValueDesc utxos) [] 0 selected hsel
      have htot' : selected.totalValue = valueSum selected.utxos := htot rfl
      have hins : ((selected.utxos.map
            (fun u => TxInput.mk (parseTx u.sourceTransactionHex) u.vout 4294967295)).map
          txInputValue).sum = valueSum selected.utxos := by
        unfold valueSum
        rw [List.map_map]
        congr 1
        refine List.map_congr_left ?_
        intro u hu
        have hu' : u ∈ utxos := by
          rcases hmem u hu with h | h
          · simp at h
          · exact (jsSort_mem utxos u).mp h
        simpa [txInputValue] using hparse u hu'
      refine ⟨selected.fee, selected.change, ?_, ?_, ?_, ?_⟩
      · unfold txInputSum txOutputSum
        simp only
        rw [hins, ← htot']
        by_cases hc : 0 < selected.change
        · simp only [if_pos hc]
          simp only [List.map_cons, List.map_nil, List.sum_cons, List.sum_nil]
          omega
        · simp only [if_neg hc]
          have : selected.change = 0 := by omega
          simp only [List.map_cons, List.map_nil, List.sum_cons, List.sum_nil]
          omega
      · rw [hfee]; exact estimateFee_nonneg _ _ r hr
      · omega
      · by_cases hc : 0 < selected.change
        · simp [hc]
        · simp [hc]

/-- Witness for claim C5 at a concrete one-input build with positive change. -/
theorem claim_C5_witness :
    ∃ fee change : Int,
      txInputSum ⟨[⟨[1000], 0, 4294967295⟩], [⟨"dest", 300⟩, ⟨"chg", 587⟩]⟩ =
        txOutputSum ⟨[⟨[1000], 0, 4294967295⟩], [⟨"dest", 300⟩, ⟨"chg", 587⟩]⟩ + fee ∧
      0 ≤ fee ∧ 0 ≤ change ∧
      (if 0 < change then
          (BsvTransaction.mk [⟨[1000], 0, 4294967295⟩] [⟨"dest", 300⟩, ⟨"chg", 587⟩]).outputs =
            [⟨"dest", 300⟩, ⟨(none : Option String).getD "chg", change⟩]
        else
          (BsvTransaction.mk [⟨[1000], 0, 4294967295⟩] [⟨"dest", 300⟩, ⟨"chg", 587⟩]).outputs =
            [⟨"dest", 300⟩]) :=
  claim_C5_build_conservation (fun _ => [1000]) "chg" [⟨"t", 0, 1000, "h"⟩] "dest" 300 none (1/2)
    ⟨[⟨[1000], 0, 4294967295⟩], [⟨"dest", 300⟩, ⟨"chg", 587⟩]⟩
    (by norm_num)
    (by intro u hu; simp only [List.mem_singleton] at hu; subst hu; rfl)
    (by norm_num [buildTransaction, selectUTXOs, selectLoop, jsSortValueDesc, insertDesc,
      estimateFee])

namespace NetClient

/-- Embedding of the `RetryConfig` interface from `src/bsv/network-client.ts`. -/
structure RetryConfig where
  maxRetries : Nat
  initialDelayMs : Nat
  maxDelayMs : Nat
deriving DecidableEq, Repr

/-- `DEFAULT_RETRY_CONFIG` from `src/bsv/network-client.ts`. -/
def DEFAULT_RETRY_CONFIG : RetryConfig := ⟨3, 1000, 10000⟩

/-- `getBackoffDelay`: `min(initialDelayMs * 2^attempt, maxDelayMs)`. -/
def getBackoffDelay (attempt : Nat) (config : RetryConfig) : Nat :=
  min (config.initialDelayMs * 2 ^ attempt) config.maxDelayMs

/-- `isRetryableError` over the status of the (optional) HTTP response
attached to an `AxiosError`: a missing response is a network error
(retryable); 5xx and 429 are retryable; everything else is not. -/
def isRetryableError (responseStatus : Option Nat) : Bool :=
  match responseStatus with
  | none => true
  | some status => if status ≥ 500 then true else if status = 429 then true else false

/-- Raw unspent-output record returned by the WhatsOnChain endpoint. -/
structure RawUtxo where
  tx_hash : String
  tx_pos : Nat
  value : Int
  height : Int
deriving DecidableEq, Repr

/-- Embedding of the `UTXO` interface from `src/types/index.ts`. -/
structure UTXO where
  txid : String
  vout : Nat
  value : Int
  satoshis : Int
  height : Int
  tx_pos : Nat
deriving DecidableEq, Repr

/-- The per-record conversion `getUTXOs` applies to the provider's data. -/
def convertUtxo (u : RawUtxo) : UTXO :=
  ⟨u.tx_hash, u.tx_pos, u.value, u.value, u.height, u.tx_pos⟩

/-- Outcome of one `axios.get` on the unspent endpoint: either the promise
resolves with a status and parsed body, or it rejects with an `AxiosError`
carrying an optional response status and a message. -/
inductive GetOutcome where
  | ok (status : Nat) (data : List RawUtxo)
  | axiosErr (responseStatus : Option Nat) (message : String)

/-- The retry loop of `NetworkClient.getUTXOs`, over an environment `env`
giving the outcome of each attempt.  `remaining` counts the loop iterations
still allowed (`maxRetries + 1 - attempt`, so the loop guard
`attempt <= maxRetries` is `remaining > 0`); the second component records
the backoff sleeps performed. -/
def getUTXOsLoop (cfg : RetryConfig) (env : Nat → GetOutcome) :
    Nat → Nat → List Nat → Except String (List UTXO) × List Nat
  | 0, _, delays => (.error "Max retries excedido al obtener UTXOs", delays)
  | remaining + 1, attempt, delays =>
      match env attempt with
      | .ok 200 data => (.ok (data.map convertUtxo), delays)
      | .ok status _ =>
          (.error ("Error al obtener UTXOs: Unexpected status: " ++ toString status), delays)
      | .axiosErr rstatus msg =>
          if rstatus = some 404 then (.ok [], delays)
          else if isRetryableError rstatus = true ∧ attempt < cfg.maxRetries then
            getUTXOsLoop cfg env remaining (attempt + 1) (delays ++ [getBackoffDelay attempt cfg])
          else (.error ("Error al obtener UTXOs: " ++ msg), delays)

/-- `NetworkClient.getUTXOs` with the default retry configuration. -/
def getUTXOs (env : Nat → GetOutcome) : Except String (List UTXO) × List Nat :=
  getUTXOsLoop DEFAULT_RETRY_CONFIG env (DEFAULT_RETRY_CONFIG.maxRetries + 1) 0 []

/-- The generic error wrapper thrown by `getUTXOs` is never the
"Max retries excedido" message (their first characters differ). -/
theorem getUTXOs_wrapper_ne (msg : String) :
    "Error al obtener UTXOs: " ++ msg ≠ "Max retries excedido al obtener UTXOs" := by
  intro h
  have h2 := congrArg (fun s => s.data.head?) h
  simp only [String.data_append, List.head?_append] at h2
  simp at h2

/-- The unexpected-status error raised by `getUTXOs` is never the
"Max retries excedido" message. -/
theorem getUTXOs_unexpected_ne (s : Nat) :
    "Error al obtener UTXOs: Unexpected status: " ++ toString s ≠
      "Max retries excedido al obtener UTXOs" := by
  intro h
  have h2 := congrArg (fun s => s.data.head?) h
  simp only [String.data_append, List.head?_append] at h2
  simp at h2

/-- The final "Max retries excedido" throw of `getUTXOs` is dead code: the
loop body's catch always raises the generic wrapper first.  (`remaining`
starts at `maxRetries + 1 - attempt ≥ 1` and the loop only recurses while
`attempt < maxRetries`.) -/
theorem getUTXOsLoop_no_maxretries (cfg : RetryConfig) (env : Nat → GetOutcome) :
    ∀ (remaining attempt : Nat) (delays : List Nat),
      1 ≤ remaining → attempt + remaining = cfg.maxRetries + 1 →
      (getUTXOsLoop cfg env remaining attempt delays).1 ≠
        .error "Max retries excedido al obtener UTXOs" := by
  intro remaining
  induction remaining with
  | zero => intro attempt delays h1 _; omega
  | succ r ih =>
      intro attempt delays _ hsum
      rw [getUTXOsLoop]
      split
      · simp
      · intro hcontra
        exact getUTXOs_unexpected_ne _ (by simpa using hcontra)
      · split
        · simp
        · split
          · rename_i hretry
            exact ih (attempt + 1) _ (by omega) (by omega)
          · intro hcontra
            exact getUTXOs_wrapper_ne _ (by simpa using hcontra)

/-- Every run of the `getUTXOs` loop sleeps exactly the backoff delays of the
retries it performed: the recorded delays extend the accumulator by
`getBackoffDelay attempt, getBackoffDelay (attempt+1), ...` for some number
of retries that never drives `attempt` past `maxRetries`. -/
theorem getUTXOsLoop_delays (cfg : RetryConfig) (env : Nat → GetOutcome) :
    ∀ (remaining attempt : Nat) (delays : List Nat),
      attempt + remaining = cfg.maxRetries + 1 →
      ∃ k, (k = 0 ∨ attempt + k ≤ cfg.maxRetries) ∧
        (getUTXOsLoop cfg env remaining attempt delays).2 =
          delays ++ (List.range k).map (fun i => getBackoffDelay (attempt + i) cfg) := by
  intro remaining
  induction remaining with
  | zero =>
      intro attempt delays hsum
      exact ⟨0, Or.inl rfl, by simp [getUTXOsLoop]⟩
  | succ r ih =>
      intro attempt delays hsum
      rw [getUTXOsLoop]
      split
      · exact ⟨0, Or.inl rfl, by simp⟩
      · exact ⟨0, Or.inl rfl, by simp⟩
      · split
        · exact ⟨0, Or.inl rfl, by simp⟩
        · split
          · rename_i hretry
            obtain ⟨k, hk, hdel⟩ := ih (attempt + 1) (delays ++ [getBackoffDelay attempt cfg])
              (by omega)
            refine ⟨k + 1, Or.inr (by omega), ?_⟩
            rw [hdel, List.range_succ_eq_map]
            simp [List.map_map, Function.comp, Nat.add_assoc, Nat.add_comm 1]
          · exact ⟨0, Or.inl rfl, by simp⟩

end NetClient

open NetClient

/-- Claim C2 (refuted by the code, which contradicts its own final throw):
four consecutive HTTP 429 responses to `getUTXOs` exhaust the 3 retries
(backing off 1000, 2000, 4000 ms) but raise the generic
"Error al obtener UTXOs: ..." wrapper — the same wrapper raised for a
direct, non-retried failure such as a 400 — and the dedicated
"Max retries excedido al obtener UTXOs" error after the loop is
unreachable for every environment. -/
theorem claim_C2_maxRetriesExceeded_unreachable :
    (getUTXOs (fun _ => .axiosErr (some 429) "Request failed with status code 429") =
      (.error "Error al obtener UTXOs: Request failed with status code 429",
        [1000, 2000, 4000])) ∧
    (getUTXOs (fun _ => .axiosErr (some 400) "Request failed with status code 400") =
      (.error "Error al obtener UTXOs: Request failed with status code 400", [])) ∧
    (∀ env : Nat → GetOutcome,
      (getUTXOs env).1 ≠ .error "Max retries excedido al obtener UTXOs") := by
  refine ⟨by rfl, by rfl, ?_⟩
  intro env
  exact getUTXOsLoop_no_maxretries DEFAULT_RETRY_CONFIG env 4 0 [] (by omega) (by rfl)

/-- Claim C7, counterexample: a first attempt failing with HTTP 404 — a 4xx
status other than 429 — is indeed never retried, but its failure is not
surfaced: `getUTXOs` resolves it to the empty result, not to an error. -/
theorem claim_C7_counterexample :
    getUTXOs (fun _ => .axiosErr (some 404) "Request failed with status code 404") =
      (.ok [], []) ∧
    ∀ e : String,
      (getUTXOs (fun _ => .axiosErr (some 404) "Request failed with status code 404")).1 ≠
        .error e := by
  refine ⟨by rfl, ?_⟩
  intro e h
  rw [show (getUTXOs (fun _ => .axiosErr (some 404) "Request failed with status code 404")).1 =
    .ok [] from rfl] at h
  exact Except.noConfusion h

/-- Claim C7, amended: the chain-data client retries a transport failure
(no response), a 5xx or a 429 after a backoff of
`min(1000 * 2^k, 10000)` ms for retry index k (1 s, 2 s, 4 s), performing at
most 3 retries; an attempt failing with a non-retryable status other than
404 is never retried and its failure is surfaced immediately; a 404 on the
UTXO lookup is likewise never retried but resolves immediately to the empty
result instead of a surfaced failure. -/
theorem claim_C7_retry_policy :
    (∀ k, getBackoffDelay k DEFAULT_RETRY_CONFIG = min (1000 * 2 ^ k) 10000) ∧
    (getBackoffDelay 0 DEFAULT_RETRY_CONFIG = 1000 ∧
      getBackoffDelay 1 DEFAULT_RETRY_CONFIG = 2000 ∧
      getBackoffDelay 2 DEFAULT_RETRY_CONFIG = 4000 ∧
      getBackoffDelay 4 DEFAULT_RETRY_CONFIG = 10000) ∧
    (isRetryableError none = true ∧ isRetryableError (some 500) = true ∧
      isRetryableError (some 503) = true ∧ isRetryableError (some 429) = true ∧
      isRetryableError (some 400) = false ∧ isRetryableError (some 404) = false) ∧
    (∀ (env : Nat → GetOutcome) (rstatus : Option Nat) (msg : String),
      env 0 = .axiosErr rstatus msg → isRetryableError rstatus = true →
      getUTXOs env =
        getUTXOsLoop DEFAULT_RETRY_CONFIG env 3 1 [getBackoffDelay 0 DEFAULT_RETRY_CONFIG]) ∧
    (∀ (env : Nat → GetOutcome) (s : Nat) (msg : String),
      env 0 = .axiosErr (some s) msg → isRetryableError (some s) = false → s ≠ 404 →
      getUTXOs env = (.error ("Error al obtener UTXOs: " ++ msg), [])) ∧
    (∀ (env : Nat → GetOutcome) (msg : String),
      env 0 = .axiosErr (some 404) msg → getUTXOs env = (.ok [], [])) ∧
    (∀ env : Nat → GetOutcome, ∃ k, k ≤ 3 ∧
      (getUTXOs env).2 = [1000, 2000, 4000].take k) := by
  refine ⟨fun k => rfl, ⟨rfl, rfl, rfl, rfl⟩, ⟨rfl, rfl, rfl, rfl, rfl, rfl⟩, ?_, ?_, ?_, ?_⟩
  · intro env rstatus msg henv hretry
    have h404 : rstatus ≠ some 404 := by
      intro h; rw [h] at hretry; simp [isRetryableError] at hretry
    unfold getUTXOs
    rw [getUTXOsLoop, henv]
    dsimp only
    rw [if_neg h404, if_pos ⟨hretry, by decide⟩]
    rfl
  · intro env s msg henv hretry hs
    unfold getUTXOs
    rw [getUTXOsLoop, henv]
    dsimp only
    rw [if_neg (by simpa using hs), if_neg (by simp [hretry])]
  · intro env msg henv
    unfold getUTXOs
    rw [getUTXOsLoop, henv]
    dsimp only
    rw [if_pos rfl]
  · intro env
    obtain ⟨k, hk, hdel⟩ :=
      getUTXOsLoop_delays DEFAULT_RETRY_CONFIG env 4 0 [] (by rfl)
    have hk3 : k ≤ 3 := by
      rcases hk with h | h
      · omega
      · simpa [DEFAULT_RETRY_CONFIG] using h
    refine ⟨k, hk3, ?_⟩
    rw [show getUTXOs env = getUTXOsLoop DEFAULT_RETRY_CONFIG env 4 0 [] from rfl, hdel]
    interval_cases k <;> rfl

/-- Witness for claim C7: a direct 400 failure surfaces immediately with no
backoff sleeps. -/
theorem claim_C7_witness :
    getUTXOs (fun _ => .axiosErr (some 400) "Request failed with status code 400") =
      (.error ("Error al obtener UTXOs: " ++ "Request failed with status code 400"), []) :=
  claim_C7_retry_policy.2.2.2.2.1
    (fun _ => .axiosErr (some 400) "Request failed with status code 400") 400
    "Request failed with status code 400" rfl rfl (by omega)

namespace NetClient

/-- Whether `needle` occurs as a contiguous substring of the list, embedding
`String.prototype.includes`. -/
def containsSub (needle : List Char) : List Char → Bool
  | [] => needle.isEmpty
  | c :: rest => needle.isPrefixOf (c :: rest) || containsSub needle rest

/-- `errorMessage.includes(pattern)` on strings. -/
def strIncludes (s pattern : String) : Bool := containsSub pattern.data s.data

/-- Body of an error response as seen by `broadcastTransaction`: either a
string or some non-string JSON value (only its stringness matters). -/
inductive RespData where
  | str (s : String)
  | nonStr

/-- `const errorMessage = error.response?.data || error.message`: the
message is the fallback when the response or its data is absent, or the data
is the empty string (JavaScript falsiness); non-string data is kept and
later fails the `typeof errorMessage === 'string'` guards. -/
def broadcastErrorMessage : Option RespData → String → RespData
  | some (.str s), m => if s = "" then .str m else .str s
  | some .nonStr, _ => .nonStr
  | none, m => .str m

/-- The "already broadcast" provider strings recognised by
`broadcastTransaction`. -/
def alreadyBroadcastPatterns : List String :=
  ["Transaction already in the mempool", "txn-already-known",
    "Transaction already exists", "already in block chain"]

/-- The missing/spent-inputs provider strings recognised by
`broadcastTransaction`. -/
def staleInputPatterns : List String :=
  ["Missing inputs", "bad-txns-inputs-spent", "txn-mempool-conflict"]

/-- Embedding of the `BroadcastResult` interface. -/
structure BroadcastResult where
  success : Bool
  txid : Option String
  error : Option String
deriving DecidableEq, Repr

/-- Outcome of one `axios.post` to the broadcast endpoint. -/
inductive PostOutcome where
  | ok (status : Nat) (data : String)
  | axiosErr (responseStatus : Option Nat) (responseData : Option RespData) (message : String)

/-- The retry loop of `NetworkClient.broadcastTransaction`; as in
`getUTXOsLoop`, `remaining = maxRetries + 1 - attempt` counts the
iterations still allowed and the second component records the backoff
sleeps.  Every path returns a structured result; nothing is thrown. -/
def broadcastLoop (cfg : RetryConfig) (env : Nat → PostOutcome) :
    Nat → Nat → List Nat → BroadcastResult × List Nat
  | 0, _, delays => (⟨false, none, some "Max retries excedido"⟩, delays)
  | remaining + 1, attempt, delays =>
      match env attempt with
      | .ok 200 data => (⟨true, some data.trim, none⟩, delays)
      | .ok status _ => (⟨false, none, some ("Unexpected status: " ++ toString status)⟩, delays)
      | .axiosErr rstatus rdata msg =>
          match broadcastErrorMessage rdata msg with
          | .str emsg =>
              if alreadyBroadcastPatterns.any (fun p => strIncludes emsg p) then
                (⟨false, none, some "Transacción ya fue broadcast"⟩, delays)
              else if staleInputPatterns.any (fun p => strIncludes emsg p) then
                (⟨false, none, some emsg⟩, delays)
              else if isRetryableError rstatus = true ∧ attempt < cfg.maxRetries then
                broadcastLoop cfg env remaining (attempt + 1)
                  (delays ++ [getBackoffDelay attempt cfg])
              else (⟨false, none, some emsg⟩, delays)
          | .nonStr =>
              if isRetryableError rstatus = true ∧ attempt < cfg.maxRetries then
                broadcastLoop cfg env remaining (attempt + 1)
                  (delays ++ [getBackoffDelay attempt cfg])
              else (⟨false, none, some "Error al broadcast"⟩, delays)

/-- `NetworkClient.broadcastTransaction` with the default retry config. -/
def broadcastTransaction (env : Nat → PostOutcome) : BroadcastResult × List Nat :=
  broadcastLoop DEFAULT_RETRY_CONFIG env (DEFAULT_RETRY_CONFIG.maxRetries + 1) 0 []

end NetClient

/-- Claim C6: `broadcastTransaction` classifies provider error text into
three buckets before any retry decision: an error body containing one of
the "already known / already in mempool / already in block chain" strings
returns the structured non-throwing result `success = false` with the
already-broadcast marker error, with no retry and no exception; a body
containing one of the "missing inputs / inputs spent / mempool conflict"
strings returns a structured hard failure carrying that body, with no
retry; any other error follows the generic retry policy (a retryable status
backs off `getBackoffDelay 0` and proceeds to the next attempt).  Scenario
E: a body containing "txn-already-known" produces exactly
`success = false, error = "Transacción ya fue broadcast"`. -/
theorem claim_C6_broadcast_classification :
    (∀ (env : Nat → NetClient.PostOutcome) (rstatus : Option Nat)
        (rdata : Option NetClient.RespData) (msg emsg : String),
      env 0 = .axiosErr rstatus rdata msg →
      NetClient.broadcastErrorMessage rdata msg = .str emsg →
      NetClient.alreadyBroadcastPatterns.any (fun p => NetClient.strIncludes emsg p) = true →
      NetClient.broadcastTransaction env =
        (⟨false, none, some "Transacción ya fue broadcast"⟩, [])) ∧
    (∀ (env : Nat → NetClient.PostOutcome) (rstatus : Option Nat)
        (rdata : Option NetClient.RespData) (msg emsg : String),
      env 0 = .axiosErr rstatus rdata msg →
      NetClient.broadcastErrorMessage rdata msg = .str emsg →
      NetClient.alreadyBroadcastPatterns.any (fun p => NetClient.strIncludes emsg p) = false →
      NetClient.staleInputPatterns.any (fun p => NetClient.strIncludes emsg p) = true →
      NetClient.broadcastTransaction env = (⟨false, none, some emsg⟩, [])) ∧
    (∀ (env : Nat → NetClient.PostOutcome) (rstatus : Option Nat)
        (rdata : Option NetClient.RespData) (msg emsg : String),
      env 0 = .axiosErr rstatus rdata msg →
      NetClient.broadcastErrorMessage rdata msg = .str emsg →
      NetClient.alreadyBroadcastPatterns.any (fun p => NetClient.strIncludes emsg p) = false →
      NetClient.staleInputPatterns.any (fun p => NetClient.strIncludes emsg p) = false →
      NetClient.isRetryableError rstatus = true →
      NetClient.broadcastTransaction env =
        NetClient.broadcastLoop NetClient.DEFAULT_RETRY_CONFIG env 3 1
          [NetClient.getBackoffDelay 0 NetClient.DEFAULT_RETRY_CONFIG]) ∧
    (NetClient.broadcastTransaction
        (fun _ => .axiosErr (some 400) (some (.str "257: txn-already-known"))
          "Request failed with status code 400") =
      (⟨false, none, some "Transacción ya fue broadcast"⟩, [])) := by
  refine ⟨?_, ?_, ?_, by rfl⟩
  · intro env rstatus rdata msg emsg henv hmsg halready
    unfold NetClient.broadcastTransaction
    rw [NetClient.broadcastLoop, henv]
    dsimp only
    rw [hmsg]
    dsimp only
    rw [if_pos halready]
  · intro env rstatus rdata msg emsg henv hmsg halready hstale
    unfold NetClient.broadcastTransaction
    rw [NetClient.broadcastLoop, henv]
    dsimp only
    rw [hmsg]
    dsimp only
    rw [if_neg (by simp [halready]), if_pos hstale]
  · intro env rstatus rdata msg emsg henv hmsg halready hstale hretry
    unfold NetClient.broadcastTransaction
    rw [NetClient.broadcastLoop, henv]
    dsimp only
    rw [hmsg]
    dsimp only
    rw [if_neg (by simp [halready]), if_neg (by simp [hstale]),
      if_pos ⟨hretry, by decide⟩]
    rfl

/-- Witness for claim C6 at Scenario E's input, through the first bucket. -/
theorem claim_C6_witness :
    NetClient.broadcastTransaction
        (fun _ => .axiosErr (some 400) (some (.str "257: txn-already-known"))
          "Request failed with status code 400") =
      (⟨false, none, some "Transacción ya fue broadcast"⟩, []) :=
  claim_C6_broadcast_classification.1
    (fun _ => .axiosErr (some 400) (some (.str "257: txn-already-known"))
      "Request failed with status code 400")
    (some 400) (some (.str "257: txn-already-known")) "Request failed with status code 400"
    "257: txn-already-known" rfl (by rfl) (by decide)

namespace Codec

/-- The standard base64 alphabet used by Buffer base64 encoding. -/
def base64Alphabet : List Char :=
  "ABCDEFGHIJKLMNOPQRSTUVWXYZabcdefghijklmnopqrstuvwxyz0123456789+/".data

/-- The base64 character of a sextet. -/
def b64Char (i : Nat) : Char := base64Alphabet.getD i 'A'

/-- The 6-bit groups of a byte list (big-endian within each 3-byte group),
as produced by base64 encoding. -/
def sextets : List Nat → List Nat
  | [] => []
  | [a] => [a / 4, a % 4 * 16]
  | [a, b] => [a / 4, a % 4 * 16 + b / 16, b % 16 * 4]
  | a :: b :: c :: rest =>
      (a / 4) :: (a % 4 * 16 + b / 16) :: (b % 16 * 4 + c / 64) :: (c % 64) :: sextets rest

/-- The `'='` padding appended by base64 encoding, by byte count mod 3. -/
def b64Padding : List Nat → List Char
  | [] => []
  | [_] => ['=', '=']
  | [_, _] => ['=']
  | _ :: _ :: _ :: rest => b64Padding rest

/-- `Buffer.from(bytes).toString('base64')`. -/
def base64Encode (bytes : List Nat) : List Char :=
  (sextets bytes).map b64Char ++ b64Padding bytes

/-- The sextet of a base64 character (`none` for `'='` and foreign chars,
which Node's forgiving base64 decoder skips). -/
def b64Index (c : Char) : Option Nat := base64Alphabet.indexOf? c

/-- Reassemble bytes from 6-bit groups; trailing groups that carry fewer
than 8 leftover bits contribute the bytes their high bits complete. -/
def bytesFromSextets : List Nat → List Nat
  | [] => []
  | [_] => []
  | [w, x] => [w * 4 + x / 16]
  | [w, x, y] => [w * 4 + x / 16, x % 16 * 16 + y / 4]
  | w :: x :: y :: z :: rest =>
      (w * 4 + x / 16) :: (x % 16 * 16 + y / 4) :: (y % 4 * 64 + z) :: bytesFromSextets rest

/-- `Buffer.from(text, 'base64')`: non-alphabet characters (including the
`'='` padding) are skipped, then bytes are reassembled from the sextets. -/
def base64Decode (s : List Char) : List Nat :=
  bytesFromSextets (s.filterMap b64Index)

theorem sextets_lt (bytes : List Nat) (h : ∀ b ∈ bytes, b < 256) :
    ∀ s ∈ sextets bytes, s < 64 := by
  induction bytes using sextets.induct with
  | case1 => simp [sextets]
  | case2 a =>
      have := h a (by simp)
      simp [sextets]
      omega
  | case3 a b =>
      have ha := h a (by simp)
      have hb := h b (by simp)
      simp [sextets]
      omega
  | case4 a b c rest ih =>
      have ha := h a (by simp)
      have hb := h b (by simp)
      have hc := h c (by simp)
      intro s hs
      rw [sextets] at hs
      simp only [List.mem_cons] at hs
      rcases hs with rfl | rfl | rfl | rfl | hs
      · omega
      · omega
      · omega
      · omega
      · exact ih (fun x hx => h x (by simp [hx])) s hs

theorem b64Index_b64Char : ∀ i, i < 64 → b64Index (b64Char i) = some i := by decide

theorem b64Index_pad : b64Index '=' = none := by decide

theorem filterMap_b64_map (l : List Nat) (h : ∀ s ∈ l, s < 64) :
    (l.map b64Char).filterMap b64Index = l := by
  induction l with
  | nil => rfl
  | cons s rest ih =>
      simp only [List.map_cons, List.filterMap_cons,
        b64Index_b64Char s (h s (by simp))]
      rw [ih (fun x hx => h x (by simp [hx]))]

theorem padding_filterMap (bytes : List Nat) :
    (b64Padding bytes).filterMap b64Index = [] := by
  induction bytes using b64Padding.induct with
  | case1 => rfl
  | case2 _ => simp [b64Padding, b64Index_pad]
  | case3 _ _ => simp [b64Padding, b64Index_pad]
  | case4 a b c rest ih => rw [b64Padding]; exact ih

theorem bytesFromSextets_sextets (bytes : List Nat) (h : ∀ b ∈ bytes, b < 256) :
    bytesFromSextets (sextets bytes) = bytes := by
  induction bytes using sextets.induct with
  | case1 => rfl
  | case2 a =>
      have := h a (by simp)
      simp [sextets, bytesFromSextets]
      omega
  | case3 a b =>
      have ha := h a (by simp)
      have hb := h b (by simp)
      simp [sextets, bytesFromSextets]
      constructor <;> omega
  | case4 a b c rest ih =>
      have ha := h a (by simp)
      have hb := h b (by simp)
      have hc := h c (by simp)
      rw [sextets, bytesFromSextets, ih (fun x hx => h x (by simp [hx]))]
      have e1 : a / 4 * 4 + (a % 4 * 16 + b / 16) / 16 = a := by omega
      have e2 : (a % 4 * 16 + b / 16) % 16 * 16 + (b % 16 * 4 + c / 64) / 4 = b := by omega
      have e3 : (b % 16 * 4 + c / 64) % 4 * 64 + c % 64 = c := by omega
      rw [e1, e2, e3]

/-- base64 decode is a left inverse of base64 encode on byte lists. -/
theorem base64_roundtrip (bytes : List Nat) (h : ∀ b ∈ bytes, b < 256) :
    base64Decode (base64Encode bytes) = bytes := by
  unfold base64Decode base64Encode
  rw [List.filterMap_append, filterMap_b64_map _ (sextets_lt bytes h),
    padding_filterMap, List.append_nil, bytesFromSextets_sextets bytes h]

/-- UTF-8 encoding of one scalar value (1 to 4 bytes). -/
def utf8EncodeChar (c : Char) : List Nat :=
  if c.toNat < 128 then [c.toNat]
  else if c.toNat < 2048 then [192 + c.toNat / 64, 128 + c.toNat % 64]
  else if c.toNat < 65536 then
    [224 + c.toNat / 4096, 128 + c.toNat / 64 % 64, 128 + c.toNat % 64]
  else
    [240 + c.toNat / 262144, 128 + c.toNat / 4096 % 64, 128 + c.toNat / 64 % 64,
      128 + c.toNat % 64]

/-- `Buffer.from(text, 'utf8')`. -/
def utf8Encode (s : List Char) : List Nat := (s.map utf8EncodeChar).flatten

/-- U+FFFD, emitted by Node for malformed byte sequences. -/
def replacementChar : Char := Char.ofNat 65533

/-- Whether a byte is a UTF-8 continuation byte. -/
def isContByte (b : Nat) : Bool := 128 ≤ b && b < 192

/-- One UTF-8 decoding step: the scalar decoded from lead byte `b` (with
lookahead into `rest`) and how many continuation bytes it consumed;
malformed sequences give U+FFFD and consume only the lead byte. -/
def utf8Step (b : Nat) (rest : List Nat) : Char × Nat :=
  if b < 128 then (Char.ofNat b, 0)
  else if 192 ≤ b ∧ b < 224 then
    match rest with
    | b2 :: _ =>
        if isContByte b2 then (Char.ofNat ((b - 192) * 64 + (b2 - 128)), 1)
        else (replacementChar, 0)
    | [] => (replacementChar, 0)
  else if 224 ≤ b ∧ b < 240 then
    match rest with
    | b2 :: b3 :: _ =>
        if isContByte b2 ∧ isContByte b3 then
          (Char.ofNat ((b - 224) * 4096 + (b2 - 128) * 64 + (b3 - 128)), 2)
        else (replacementChar, 0)
    | _ => (replacementChar, 0)
  else if 240 ≤ b ∧ b < 248 then
    match rest with
    | b2 :: b3 :: b4 :: _ =>
        if isContByte b2 ∧ isContByte b3 ∧ isContByte b4 then
          (Char.ofNat ((b - 240) * 262144 + (b2 - 128) * 4096 + (b3 - 128) * 64 + (b4 - 128)), 3)
        else (replacementChar, 0)
    | _ => (replacementChar, 0)
  else (replacementChar, 0)

/-- `buffer.toString('utf8')`: decode UTF-8, replacing malformed sequences
with U+FFFD.  (Sequences decoding to invalid scalar values fall back to
`Char.ofNat`'s default; none arise from `utf8Encode` output.) -/
def utf8Decode : List Nat → List Char
  | [] => []
  | b :: rest =>
      match utf8Step b rest with
      | (c, k) => c :: utf8Decode (rest.drop k)
termination_by l => l.length
decreasing_by simp only [List.length_cons, List.length_drop]; omega

theorem utf8Encode_ascii (s : List Char) (h : ∀ c ∈ s, c.toNat < 128) :
    utf8Encode s = s.map Char.toNat := by
  induction s with
  | nil => rfl
  | cons c rest ih =>
      have hc := h c (by simp)
      have hrest := ih (fun x hx => h x (by simp [hx]))
      show (List.map utf8EncodeChar (c :: rest)).flatten = List.map Char.toNat (c :: rest)
      rw [List.map_cons, List.flatten_cons, List.map_cons,
        show utf8EncodeChar c = [c.toNat] by rw [utf8EncodeChar, if_pos hc],
        List.singleton_append]
      exact congrArg (c.toNat :: ·) hrest

/-- UTF-8 decode inverts UTF-8 encode on ASCII text. -/
theorem utf8_ascii_roundtrip (s : List Char) (h : ∀ c ∈ s, c.toNat < 128) :
    utf8Decode (utf8Encode s) = s := by
  rw [utf8Encode_ascii s h]
  induction s with
  | nil => simp only [List.map_nil]; rw [utf8Decode]
  | cons c rest ih =>
      have hc := h c (by simp)
      simp only [List.map_cons]
      rw [utf8Decode]
      rw [show utf8Step c.toNat (List.map Char.toNat rest) = (Char.ofNat c.toNat, 0) by
        rw [utf8Step.eq_def, if_pos hc]]
      dsimp only
      rw [List.drop_zero, Char.ofNat_toNat, ih (fun x hx => h x (by simp [hx]))]

theorem utf8Encode_lt_256 (s : List Char) (h : ∀ c ∈ s, c.toNat < 128) :
    ∀ b ∈ utf8Encode s, b < 256 := by
  rw [utf8Encode_ascii s h]
  intro b hb
  simp only [List.mem_map] at hb
  obtain ⟨c, hc, rfl⟩ := hb
  have := h c hc
  omega

end Codec

namespace Codec

/-- JSON values, the image of `JSON.parse`. -/
inductive Json where
  | null
  | bool (b : Bool)
  | num (q : ℚ)
  | str (s : List Char)
  | arr (elems : List Json)
  | obj (members : List (List Char × Json))
deriving BEq

def hexLowerDigits : List Char := "0123456789abcdef".data

/-- The escape `JSON.stringify` applies to one character inside a string. -/
def jsonEscapeChar (c : Char) : List Char :=
  if c = '"' then ['\\', '"']
  else if c = '\\' then ['\\', '\\']
  else if c.toNat = 8 then ['\\', 'b']
  else if c.toNat = 9 then ['\\', 't']
  else if c.toNat = 10 then ['\\', 'n']
  else if c.toNat = 12 then ['\\', 'f']
  else if c.toNat = 13 then ['\\', 'r']
  else if c.toNat < 32 then
    ['\\', 'u', '0', '0',
      hexLowerDigits.getD (c.toNat / 16) '0', hexLowerDigits.getD (c.toNat % 16) '0']
  else [c]

def jsonEscapeList (s : List Char) : List Char := (s.map jsonEscapeChar).flatten

/-- Rendering of a JSON number.  `JSON.stringify` prints doubles; every
number this codec emits is a small integer, which prints identically. -/
def jsonRenderNum (q : ℚ) : List Char :=
  if q.den = 1 then (toString q.num).data else (toString q).data

mutual

/-- `JSON.stringify` (no spacing argument, keys in insertion order). -/
def jsonRender : Json → List Char
  | .null => "null".data
  | .bool true => "true".data
  | .bool false => "false".data
  | .num q => jsonRenderNum q
  | .str s => '"' :: (jsonEscapeList s ++ ['"'])
  | .arr es => '[' :: (jsonRenderElems es ++ [']'])
  | .obj ms => '\x7b' :: (jsonRenderMembers ms ++ ['\x7d'])

def jsonRenderElems : List Json → List Char
  | [] => []
  | e :: rest =>
      jsonRender e ++ (if rest.isEmpty then [] else [',']) ++ jsonRenderElems rest

def jsonRenderMembers : List (List Char × Json) → List Char
  | [] => []
  | (k, v) :: rest =>
      ('"' :: (jsonEscapeList k ++ '"' :: ':' :: jsonRender v)) ++
        (if rest.isEmpty then [] else [',']) ++ jsonRenderMembers rest

end

def wsChar (c : Char) : Bool := c = ' ' || c.toNat = 9 || c.toNat = 10 || c.toNat = 13

def skipWs : List Char → List Char
  | [] => []
  | c :: rest => if wsChar c then skipWs rest else c :: rest

def isDigitChar (c : Char) : Bool := 48 ≤ c.toNat && c.toNat ≤ 57

/-- Value of a decimal digit string. -/
def digitsVal (ds : List Char) : Nat := ds.foldl (fun a c => a * 10 + (c.toNat - 48)) 0

def hexVal (c : Char) : Option Nat :=
  if 48 ≤ c.toNat ∧ c.toNat ≤ 57 then some (c.toNat - 48)
  else if 97 ≤ c.toNat ∧ c.toNat ≤ 102 then some (c.toNat - 87)
  else if 65 ≤ c.toNat ∧ c.toNat ≤ 70 then some (c.toNat - 55)
  else none

/-- Parse a JSON string body after the opening quote, handling escapes,
up to and past the closing quote.  (Surrogate-pair combining is not
modelled; no surrogate escapes arise in this codec's payloads.) -/
def parseStringBody : List Char → Option (List Char × List Char)
  | [] => none
  | c :: rest =>
      if c = '"' then some ([], rest)
      else if c = '\\' then
        match rest with
        | 'u' :: h1 :: h2 :: h3 :: h4 :: rest3 =>
            match hexVal h1, hexVal h2, hexVal h3, hexVal h4 with
            | some a, some b, some c2, some d =>
                (parseStringBody rest3).map
                  (fun p => (Char.ofNat (a * 4096 + b * 256 + c2 * 16 + d) :: p.1, p.2))
            | _, _, _, _ => none
        | e :: rest2 =>
            if e = '"' ∨ e = '\\' ∨ e = '/' then
              (parseStringBody rest2).map (fun p => (e :: p.1, p.2))
            else if e = 'b' then (parseStringBody rest2).map (fun p => (Char.ofNat 8 :: p.1, p.2))
            else if e = 'f' then (parseStringBody rest2).map (fun p => (Char.ofNat 12 :: p.1, p.2))
            else if e = 'n' then (parseStringBody rest2).map (fun p => (Char.ofNat 10 :: p.1, p.2))
            else if e = 'r' then (parseStringBody rest2).map (fun p => (Char.ofNat 13 :: p.1, p.2))
            else if e = 't' then (parseStringBody rest2).map (fun p => (Char.ofNat 9 :: p.1, p.2))
            else none
        | [] => none
      else if c.toNat < 32 then none
      else (parseStringBody rest).map (fun p => (c :: p.1, p.2))
termination_by l => l.length
decreasing_by all_goals (simp only [List.length_cons]; omega)

/-- Fractional part of a JSON number. -/
def parseFrac (intPart : ℚ) (l : List Char) : Option (ℚ × List Char) :=
  match l with
  | c :: r =>
      if c = '.' then
        let fs := r.takeWhile isDigitChar
        if fs.isEmpty then none
        else some (intPart + (digitsVal fs : ℚ) / (10 : ℚ) ^ fs.length, r.dropWhile isDigitChar)
      else some (intPart, c :: r)
  | [] => some (intPart, [])

def parseExpDigits (m : ℚ) (neg : Bool) (l : List Char) : Option (ℚ × List Char) :=
  let ds := l.takeWhile isDigitChar
  if ds.isEmpty then none
  else
    some (if neg then m / (10 : ℚ) ^ digitsVal ds else m * (10 : ℚ) ^ digitsVal ds,
      l.dropWhile isDigitChar)

/-- Exponent part of a JSON number. -/
def parseExp (m : ℚ) : List Char → Option (ℚ × List Char)
  | [] => some (m, [])
  | c :: rest =>
      if c = 'e' ∨ c = 'E' then
        match rest with
        | c2 :: rest2 =>
            if c2 = '+' then parseExpDigits m false rest2
            else if c2 = '-' then parseExpDigits m true rest2
            else parseExpDigits m false (c2 :: rest2)
        | [] => parseExpDigits m false []
      else some (m, c :: rest)

def parseNumberNonneg (l : List Char) : Option (ℚ × List Char) :=
  let ds := l.takeWhile isDigitChar
  if ds.isEmpty then none
  else
    match parseFrac (digitsVal ds) (l.dropWhile isDigitChar) with
    | none => none
    | some (m, r2) => parseExp m r2

/-- JSON number parser over exact rationals.  (`JSON.parse` rounds to the
nearest double; the integers this codec produces are unaffected.) -/
def parseNumber : List Char → Option (ℚ × List Char)
  | [] => parseNumberNonneg []
  | c :: r =>
      if c = '-' then (parseNumberNonneg r).map (fun p => (-p.1, p.2))
      else parseNumberNonneg (c :: r)

mutual

/-- `JSON.parse`, fueled.  Every recursive call first consumes at least one
input character, so any fuel exceeding the input length (as supplied by
`jsonParse`) behaves as the unbounded parser. -/
def parseValue : Nat → List Char → Option (Json × List Char)
  | 0, _ => none
  | fuel + 1, l =>
      match skipWs l with
      | [] => none
      | c :: rest =>
          if c = '"' then (parseStringBody rest).map (fun p => (Json.str p.1, p.2))
          else if c = '\x7b' then
            match skipWs rest with
            | c2 :: rest2 =>
                if c2 = '\x7d' then some (Json.obj [], rest2)
                else (parseMembers fuel rest).map (fun p => (Json.obj p.1, p.2))
            | [] => (parseMembers fuel rest).map (fun p => (Json.obj p.1, p.2))
          else if c = '[' then
            match skipWs rest with
            | c2 :: rest2 =>
                if c2 = ']' then some (Json.arr [], rest2)
                else (parseElems fuel rest).map (fun p => (Json.arr p.1, p.2))
            | [] => (parseElems fuel rest).map (fun p => (Json.arr p.1, p.2))
          else if c = 't' then
            if ['r', 'u', 'e'].isPrefixOf rest then some (Json.bool true, rest.drop 3) else none
          else if c = 'f' then
            if ['a', 'l', 's', 'e'].isPrefixOf rest then some (Json.bool false, rest.drop 4)
            else none
          else if c = 'n' then
            if ['u', 'l', 'l'].isPrefixOf rest then some (Json.null, rest.drop 3) else none
          else (parseNumber (c :: rest)).map (fun p => (Json.num p.1, p.2))

def parseMembers : Nat → List Char → Option (List (List Char × Json) × List Char)
  | 0, _ => none
  | fuel + 1, l =>
      match skipWs l with
      | [] => none
      | c :: rest =>
          if c = '"' then
            match parseStringBody rest with
            | none => none
            | some (k, rest2) =>
                match skipWs rest2 with
                | [] => none
                | c3 :: rest3 =>
                    if c3 = ':' then
                      match parseValue fuel rest3 with
                      | none => none
                      | some (v, rest4) =>
                          match skipWs rest4 with
                          | [] => none
                          | c5 :: rest5 =>
                              if c5 = ',' then
                                (parseMembers fuel rest5).map
                                  (fun p => ((k, v) :: p.1, p.2))
                              else if c5 = '\x7d' then some ([(k, v)], rest5)
                              else none
                    else none
          else none

def parseElems : Nat → List Char → Option (List Json × List Char)
  | 0, _ => none
  | fuel + 1, l =>
      match parseValue fuel l with
      | none => none
      | some (v, rest) =>
          match skipWs rest with
          | [] => none
          | c2 :: rest2 =>
              if c2 = ',' then (parseElems fuel rest2).map (fun p => (v :: p.1, p.2))
              else if c2 = ']' then some ([v], rest2)
              else none

end

/-- `JSON.parse`: a complete value followed only by whitespace. -/
def jsonParse (l : List Char) : Option Json :=
  match parseValue (l.length + 1) l with
  | some (v, rest) =>
      match skipWs rest with
      | [] => some v
      | _ => none
  | none => none

end Codec

namespace Codec

/-- The two wallet networks (`Network` in `src/types/index.ts`). -/
inductive Network where
  | mainnet
  | testnet
deriving DecidableEq, Repr

/-- `AccessibilityPreferences` from `src/types/index.ts`. -/
structure AccessibilityPreferences where
  language : Option String
  cognitiveLevel : Option String
  audioFriendly : Option Bool

/-- JSON image of the accessibility block (`JSON.stringify` drops absent
fields). -/
def accessibilityJson (a : AccessibilityPreferences) : Json :=
  Json.obj
    ((match a.language with
      | some s => [("language".data, Json.str s.data)]
      | none => []) ++
     (match a.cognitiveLevel with
      | some s => [("cognitiveLevel".data, Json.str s.data)]
      | none => []) ++
     (match a.audioFriendly with
      | some b => [("audioFriendly".data, Json.bool b)]
      | none => []))

/-- The X402 payload object built by `createPaymentPayloadFromHex`
(`src/x402/payment-creator.ts`), with keys in the source's insertion order
and the accessibility block spread in only when provided. -/
def paymentPayloadJson (txHex : String) (network : Network)
    (accessibility : Option AccessibilityPreferences) : Json :=
  Json.obj
    ([("x402Version".data, Json.num 1),
      ("scheme".data, Json.str "exact".data),
      ("network".data,
        Json.str (if network = Network.testnet then "bsv-testnet".data else "bsv-mainnet".data)),
      ("payload".data, Json.obj [("transaction".data, Json.str txHex.data)])] ++
     (match accessibility with
      | some acc => [("accessibility".data, accessibilityJson acc)]
      | none => []))

/-- `createPaymentPayloadFromHex`: build the payload object, serialize with
`JSON.stringify`, and base64-encode the UTF-8 bytes. -/
def createPaymentPayloadFromHex (txHex : String) (network : Network)
    (accessibility : Option AccessibilityPreferences) : List Char :=
  base64Encode (utf8Encode (jsonRender (paymentPayloadJson txHex network accessibility)))

/-- `obj.key` on a parsed JSON object: the last binding wins, `none` is
JavaScript `undefined`. -/
def jsGet (ms : List (List Char × Json)) (key : List Char) : Option Json :=
  ms.foldl (fun acc m => if m.1 = key then some m.2 else acc) none

/-- JavaScript truthiness of a possibly-absent parsed JSON value. -/
def jsTruthy : Option Json → Bool
  | none => false
  | some .null => false
  | some (.bool b) => b
  | some (.num q) => decide (q ≠ 0)
  | some (.str s) => !s.isEmpty
  | some (.arr _) => true
  | some (.obj _) => true

/-- `parsePaymentPayload`: base64-decode, UTF-8 decode, `JSON.parse`, then
the truthiness validation of `x402Version`, `scheme`, `network` and
`payload`; every failure is caught and wrapped with the
"Error al parsear payload X402: " prefix (engine error texts abbreviated). -/
def parsePaymentPayload (payloadBase64 : List Char) : Except String Json :=
  match jsonParse (utf8Decode (base64Decode payloadBase64)) with
  | none => .error "Error al parsear payload X402: SyntaxError de JSON.parse"
  | some payload =>
      match payload with
      | .obj ms =>
          if jsTruthy (jsGet ms "x402Version".data) && jsTruthy (jsGet ms "scheme".data) &&
              jsTruthy (jsGet ms "network".data) && jsTruthy (jsGet ms "payload".data) then
            .ok payload
          else .error "Error al parsear payload X402: Estructura de payload X402 inválida"
      | .null => .error "Error al parsear payload X402: TypeError al leer x402Version de null"
      | _ => .error "Error al parsear payload X402: Estructura de payload X402 inválida"

/-- `extractTransactionFromPayload`: parse, then return
`payload.payload.transaction` verbatim (`none` is JavaScript `undefined`);
errors are wrapped with the "Error al extraer transacción: " prefix. -/
def extractTransactionFromPayload (payloadBase64 : List Char) :
    Except String (Option Json) :=
  match parsePaymentPayload payloadBase64 with
  | .error e => .error ("Error al extraer transacción: " ++ e)
  | .ok payload =>
      match payload with
      | .obj ms =>
          match jsGet ms "payload".data with
          | some (.obj pms) => .ok (jsGet pms "transaction".data)
          | some _ => .ok none
          | none => .error "Error al extraer transacción: TypeError al leer transaction"
      | _ => .error "Error al extraer transacción: TypeError al leer transaction"

end Codec

namespace Codec

theorem skipWs_cons (c : Char) (l : List Char) (h : wsChar c = false) :
    skipWs (c :: l) = c :: l := by
  rw [skipWs, if_neg (by simp [h])]

/-- Characters that a JSON string literal carries through unescaped. -/
def plainChar (c : Char) : Prop := c ≠ '"' ∧ c ≠ '\\' ∧ 32 ≤ c.toNat

instance plainCharDecidable : DecidablePred plainChar := fun c => by
  unfold plainChar
  infer_instance

theorem parseStringBody_plain (s : List Char) (hs : ∀ c ∈ s, plainChar c) (r : List Char) :
    parseStringBody (s ++ '"' :: r) = some (s, r) := by
  induction s with
  | nil =>
      simp only [List.nil_append]
      rw [parseStringBody.eq_def]
      dsimp only
      rw [if_pos rfl]
  | cons c s2 ih =>
      obtain ⟨hq, hb, hge⟩ := hs c (by simp)
      simp only [List.cons_append]
      rw [parseStringBody.eq_def]
      dsimp only
      rw [if_neg hq, if_neg hb, if_neg (by omega)]
      rw [ih (fun x hx => hs x (by simp [hx]))]
      rfl

theorem jsonEscapeChar_plain (c : Char) (h : plainChar c) : jsonEscapeChar c = [c] := by
  obtain ⟨hq, hb, hge⟩ := h
  rw [jsonEscapeChar]
  rw [if_neg hq, if_neg hb, if_neg (by omega), if_neg (by omega), if_neg (by omega),
    if_neg (by omega), if_neg (by omega), if_neg (by omega)]

theorem jsonEscapeList_plain (s : List Char) (h : ∀ c ∈ s, plainChar c) :
    jsonEscapeList s = s := by
  induction s with
  | nil => rfl
  | cons c s2 ih =>
      show (List.map jsonEscapeChar (c :: s2)).flatten = c :: s2
      rw [List.map_cons, List.flatten_cons, jsonEscapeChar_plain c (h c (by simp))]
      rw [List.singleton_append]
      exact congrArg (c :: ·) (ih (fun x hx => h x (by simp [hx])))

theorem parseValue_str (f : Nat) (s : List Char) (hs : ∀ c ∈ s, plainChar c) (r : List Char) :
    parseValue (f + 1) ('"' :: (s ++ '"' :: r)) = some (.str s, r) := by
  rw [parseValue, skipWs_cons _ _ (by decide)]
  dsimp only
  rw [if_pos rfl, parseStringBody_plain s hs r]
  rfl

theorem parseValue_one (f : Nat) (r : List Char) :
    parseValue (f + 1) ('1' :: ',' :: r) = some (.num 1, ',' :: r) := by
  rw [parseValue, skipWs_cons _ _ (by decide)]
  dsimp only
  rw [if_neg (by decide), if_neg (by decide), if_neg (by decide), if_neg (by decide),
    if_neg (by decide), if_neg (by decide)]
  rw [parseNumber.eq_def]
  dsimp only
  rw [if_neg (by decide)]
  rw [parseNumberNonneg]
  have h1 : isDigitChar '1' = true := rfl
  have h2 : isDigitChar ',' = false := rfl
  simp only [List.takeWhile_cons, h1, h2, if_true, if_false, Bool.false_eq_true,
    List.dropWhile_cons, List.isEmpty_cons]
  have hfrac : parseFrac ((digitsVal ['1'] : Nat) : ℚ) (',' :: r) =
      some (((digitsVal ['1'] : Nat) : ℚ), ',' :: r) := by
    rw [parseFrac.eq_def]
    dsimp only
    rw [if_neg (by decide)]
  rw [hfrac]
  dsimp only
  have hexp : parseExp ((digitsVal ['1'] : Nat) : ℚ) (',' :: r) =
      some (((digitsVal ['1'] : Nat) : ℚ), ',' :: r) := by
    rw [parseExp.eq_def]
    dsimp only
    rw [if_neg (by decide)]
  rw [hexp]
  have hv : ((digitsVal ['1'] : Nat) : ℚ) = 1 := by
    norm_num [digitsVal]
    rfl
  simp [hv]

theorem parseMembers_transaction (f : Nat) (hex r : List Char)
    (hhex : ∀ c ∈ hex, plainChar c) :
    parseMembers (f + 2)
        ('"' :: ("transaction".data ++ '"' :: ':' :: '"' :: (hex ++ '"' :: '\x7d' :: r))) =
      some ([("transaction".data, .str hex)], r) := by
  rw [show f + 2 = (f + 1) + 1 from rfl, parseMembers, skipWs_cons _ _ (by decide)]
  dsimp only
  rw [if_pos rfl, parseStringBody_plain _ (by decide) _]
  dsimp only
  rw [skipWs_cons _ _ (by decide)]
  dsimp only
  rw [if_pos rfl, parseValue_str f hex hhex ('\x7d' :: r)]
  dsimp only
  rw [skipWs_cons _ _ (by decide)]
  dsimp only
  rw [if_neg (by decide), if_pos rfl]

theorem parseValue_payloadObj (f : Nat) (hex r : List Char)
    (hhex : ∀ c ∈ hex, plainChar c) :
    parseValue (f + 3)
        ('\x7b' :: '"' :: ("transaction".data ++ '"' :: ':' :: '"' :: (hex ++ '"' :: '\x7d' :: r))) =
      some (.obj [("transaction".data, .str hex)], r) := by
  rw [show f + 3 = (f + 2) + 1 from rfl, parseValue, skipWs_cons _ _ (by decide)]
  dsimp only
  rw [if_neg (by decide), if_pos rfl, skipWs_cons _ _ (by decide)]
  dsimp only
  rw [if_neg (by decide)]
  have hm := parseMembers_transaction f hex r hhex
  rw [show (f + 2) = f + 2 from rfl, hm]
  rfl

theorem parseMembers_payload (f : Nat) (hex r : List Char)
    (hhex : ∀ c ∈ hex, plainChar c) :
    parseMembers (f + 4)
        ('"' :: ("payload".data ++ '"' :: ':' :: '\x7b' :: '"' ::
          ("transaction".data ++ '"' :: ':' :: '"' :: (hex ++ '"' :: '\x7d' :: '\x7d' :: r)))) =
      some ([("payload".data, .obj [("transaction".data, .str hex)])], r) := by
  rw [show f + 4 = (f + 3) + 1 from rfl, parseMembers, skipWs_cons _ _ (by decide)]
  dsimp only
  rw [if_pos rfl, parseStringBody_plain _ (by decide) _]
  dsimp only
  rw [skipWs_cons _ _ (by decide)]
  dsimp only
  rw [if_pos rfl]
  have hval := parseValue_payloadObj f hex ('\x7d' :: r) hhex
  rw [hval]
  dsimp only
  rw [skipWs_cons _ _ (by decide)]
  dsimp only
  rw [if_neg (by decide), if_pos rfl]

theorem parseMembers_network (f : Nat) (nm hex r : List Char)
    (hnm : ∀ c ∈ nm, plainChar c) (hhex : ∀ c ∈ hex, plainChar c) :
    parseMembers (f + 5)
        ('"' :: ("network".data ++ '"' :: ':' :: '"' :: (nm ++ '"' :: ',' :: '"' ::
          ("payload".data ++ '"' :: ':' :: '\x7b' :: '"' ::
            ("transaction".data ++ '"' :: ':' :: '"' :: (hex ++ '"' :: '\x7d' :: '\x7d' :: r)))))) =
      some ([("network".data, .str nm),
        ("payload".data, .obj [("transaction".data, .str hex)])], r) := by
  rw [show f + 5 = (f + 4) + 1 from rfl, parseMembers, skipWs_cons _ _ (by decide)]
  dsimp only
  rw [if_pos rfl, parseStringBody_plain _ (by decide) _]
  dsimp only
  rw [skipWs_cons _ _ (by decide)]
  dsimp only
  rw [if_pos rfl]
  have hval : parseValue (f + 4)
      ('"' :: (nm ++ '"' :: ',' :: '"' ::
        ("payload".data ++ '"' :: ':' :: '\x7b' :: '"' ::
          ("transaction".data ++ '"' :: ':' :: '"' :: (hex ++ '"' :: '\x7d' :: '\x7d' :: r))))) =
      some (.str nm, ',' :: '"' ::
        ("payload".data ++ '"' :: ':' :: '\x7b' :: '"' ::
          ("transaction".data ++ '"' :: ':' :: '"' :: (hex ++ '"' :: '\x7d' :: '\x7d' :: r)))) := by
    rw [show f + 4 = (f + 3) + 1 from rfl]
    exact parseValue_str (f + 3) nm hnm _
  rw [hval]
  dsimp only
  rw [skipWs_cons _ _ (by decide)]
  dsimp only
  rw [if_pos rfl]
  rw [parseMembers_payload f hex r hhex]
  rfl

theorem parseMembers_scheme (f : Nat) (nm hex r : List Char)
    (hnm : ∀ c ∈ nm, plainChar c) (hhex : ∀ c ∈ hex, plainChar c) :
    parseMembers (f + 6)
        ('"' :: ("scheme".data ++ '"' :: ':' :: '"' :: ("exact".data ++ '"' :: ',' :: '"' ::
          ("network".data ++ '"' :: ':' :: '"' :: (nm ++ '"' :: ',' :: '"' ::
            ("payload".data ++ '"' :: ':' :: '\x7b' :: '"' ::
              ("transaction".data ++ '"' :: ':' :: '"' ::
                (hex ++ '"' :: '\x7d' :: '\x7d' :: r)))))))) =
      some ([("scheme".data, .str "exact".data),
        ("network".data, .str nm),
        ("payload".data, .obj [("transaction".data, .str hex)])], r) := by
  rw [show f + 6 = (f + 5) + 1 from rfl, parseMembers, skipWs_cons _ _ (by decide)]
  dsimp only
  rw [if_pos rfl, parseStringBody_plain _ (by decide) _]
  dsimp only
  rw [skipWs_cons _ _ (by decide)]
  dsimp only
  rw [if_pos rfl]
  have hval : parseValue (f + 5)
      ('"' :: ("exact".data ++ '"' :: ',' :: '"' ::
        ("network".data ++ '"' :: ':' :: '"' :: (nm ++ '"' :: ',' :: '"' ::
          ("payload".data ++ '"' :: ':' :: '\x7b' :: '"' ::
            ("transaction".data ++ '"' :: ':' :: '"' ::
              (hex ++ '"' :: '\x7d' :: '\x7d' :: r))))))) =
      some (.str "exact".data, ',' :: '"' ::
        ("network".data ++ '"' :: ':' :: '"' :: (nm ++ '"' :: ',' :: '"' ::
          ("payload".data ++ '"' :: ':' :: '\x7b' :: '"' ::
            ("transaction".data ++ '"' :: ':' :: '"' ::
              (hex ++ '"' :: '\x7d' :: '\x7d' :: r)))))) := by
    rw [show f + 5 = (f + 4) + 1 from rfl]
    exact parseValue_str (f + 4) "exact".data (by decide) _
  rw [hval]
  dsimp only
  rw [skipWs_cons _ _ (by decide)]
  dsimp only
  rw [if_pos rfl]
  rw [parseMembers_network f nm hex r hnm hhex]
  rfl

theorem parseMembers_x402Version (f : Nat) (nm hex r : List Char)
    (hnm : ∀ c ∈ nm, plainChar c) (hhex : ∀ c ∈ hex, plainChar c) :
    parseMembers (f + 7)
        ('"' :: ("x402Version".data ++ '"' :: ':' :: '1' :: ',' :: '"' ::
          ("scheme".data ++ '"' :: ':' :: '"' :: ("exact".data ++ '"' :: ',' :: '"' ::
            ("network".data ++ '"' :: ':' :: '"' :: (nm ++ '"' :: ',' :: '"' ::
              ("payload".data ++ '"' :: ':' :: '\x7b' :: '"' ::
                ("transaction".data ++ '"' :: ':' :: '"' ::
                  (hex ++ '"' :: '\x7d' :: '\x7d' :: r))))))))) =
      some ([("x402Version".data, .num 1),
        ("scheme".data, .str "exact".data),
        ("network".data, .str nm),
        ("payload".data, .obj [("transaction".data, .str hex)])], r) := by
  rw [show f + 7 = (f + 6) + 1 from rfl, parseMembers, skipWs_cons _ _ (by decide)]
  dsimp only
  rw [if_pos rfl, parseStringBody_plain _ (by decide) _]
  dsimp only
  rw [skipWs_cons _ _ (by decide)]
  dsimp only
  rw [if_pos rfl]
  have hval : parseValue (f + 6)
      ('1' :: ',' :: '"' ::
        ("scheme".data ++ '"' :: ':' :: '"' :: ("exact".data ++ '"' :: ',' :: '"' ::
          ("network".data ++ '"' :: ':' :: '"' :: (nm ++ '"' :: ',' :: '"' ::
            ("payload".data ++ '"' :: ':' :: '\x7b' :: '"' ::
              ("transaction".data ++ '"' :: ':' :: '"' ::
                (hex ++ '"' :: '\x7d' :: '\x7d' :: r)))))))) =
      some (.num 1, ',' :: '"' ::
        ("scheme".data ++ '"' :: ':' :: '"' :: ("exact".data ++ '"' :: ',' :: '"' ::
          ("network".data ++ '"' :: ':' :: '"' :: (nm ++ '"' :: ',' :: '"' ::
            ("payload".data ++ '"' :: ':' :: '\x7b' :: '"' ::
              ("transaction".data ++ '"' :: ':' :: '"' ::
                (hex ++ '"' :: '\x7d' :: '\x7d' :: r)))))))) := by
    rw [show f + 6 = (f + 5) + 1 from rfl]
    exact parseValue_one (f + 5) _
  rw [hval]
  dsimp only
  rw [skipWs_cons _ _ (by decide)]
  dsimp only
  rw [if_pos rfl]
  rw [parseMembers_scheme f nm hex r hnm hhex]
  rfl

theorem parseValue_payment (f : Nat) (nm hex r : List Char)
    (hnm : ∀ c ∈ nm, plainChar c) (hhex : ∀ c ∈ hex, plainChar c) :
    parseValue (f + 8)
        ('\x7b' :: '"' :: ("x402Version".data ++ '"' :: ':' :: '1' :: ',' :: '"' ::
          ("scheme".data ++ '"' :: ':' :: '"' :: ("exact".data ++ '"' :: ',' :: '"' ::
            ("network".data ++ '"' :: ':' :: '"' :: (nm ++ '"' :: ',' :: '"' ::
              ("payload".data ++ '"' :: ':' :: '\x7b' :: '"' ::
                ("transaction".data ++ '"' :: ':' :: '"' ::
                  (hex ++ '"' :: '\x7d' :: '\x7d' :: r))))))))) =
      some (.obj [("x402Version".data, .num 1),
        ("scheme".data, .str "exact".data),
        ("network".data, .str nm),
        ("payload".data, .obj [("transaction".data, .str hex)])], r) := by
  rw [show f + 8 = (f + 7) + 1 from rfl, parseValue, skipWs_cons _ _ (by decide)]
  dsimp only
  rw [if_neg (by decide), if_pos rfl, skipWs_cons _ _ (by decide)]
  dsimp only
  rw [if_neg (by decide)]
  rw [parseMembers_x402Version f nm hex r hnm hhex]
  rfl

/-- The serialized payload text up to the network string. -/
def paymentPrefix : List Char :=
  "\x7b\"x402Version\":1,\"scheme\":\"exact\",\"network\":\"".data

/-- The serialized payload text between the network string and the
transaction hex. -/
def paymentMid : List Char := "\",\"payload\":\x7b\"transaction\":\"".data

/-- The serialized payload text after the transaction hex. -/
def paymentSuffix : List Char := "\"\x7d\x7d".data

/-- The serialized payload as prefix/network/mid/hex/suffix. -/
def paymentFlat (nm hex : List Char) : List Char :=
  paymentPrefix ++ nm ++ paymentMid ++ hex ++ paymentSuffix

theorem paymentFlat_cons (nm hex : List Char) :
    paymentFlat nm hex =
      '\x7b' :: '"' :: ("x402Version".data ++ '"' :: ':' :: '1' :: ',' :: '"' ::
        ("scheme".data ++ '"' :: ':' :: '"' :: ("exact".data ++ '"' :: ',' :: '"' ::
          ("network".data ++ '"' :: ':' :: '"' :: (nm ++ '"' :: ',' :: '"' ::
            ("payload".data ++ '"' :: ':' :: '\x7b' :: '"' ::
              ("transaction".data ++ '"' :: ':' :: '"' ::
                (hex ++ '"' :: '\x7d' :: '\x7d' :: [])))))))) := by
  simp [paymentFlat, paymentPrefix, paymentMid, paymentSuffix]

theorem render_payment (hex : String) (net : Network)
    (hhex : ∀ c ∈ hex.data, plainChar c) :
    jsonRender (paymentPayloadJson hex net none) =
      paymentFlat
        (if net = Network.testnet then "bsv-testnet".data else "bsv-mainnet".data)
        hex.data := by
  rw [paymentFlat_cons]
  have e1 : jsonEscapeList "x402Version".data = "x402Version".data :=
    jsonEscapeList_plain _ (by decide)
  have e2 : jsonEscapeList "scheme".data = "scheme".data :=
    jsonEscapeList_plain _ (by decide)
  have e3 : jsonEscapeList "exact".data = "exact".data :=
    jsonEscapeList_plain _ (by decide)
  have e4 : jsonEscapeList "network".data = "network".data :=
    jsonEscapeList_plain _ (by decide)
  have e5 : jsonEscapeList "payload".data = "payload".data :=
    jsonEscapeList_plain _ (by decide)
  have e6 : jsonEscapeList "transaction".data = "transaction".data :=
    jsonEscapeList_plain _ (by decide)
  have e7 : jsonEscapeList hex.data = hex.data := jsonEscapeList_plain _ hhex
  have e8 : jsonEscapeList (if net = Network.testnet then "bsv-testnet".data
      else "bsv-mainnet".data) =
      (if net = Network.testnet then "bsv-testnet".data else "bsv-mainnet".data) := by
    cases net <;> simp <;> exact jsonEscapeList_plain _ (by decide)
  have en : jsonRenderNum 1 = ['1'] := by decide
  simp only [paymentPayloadJson, jsonRender, jsonRenderMembers,
    e1, e2, e3, e4, e5, e6, e7, e8, en, List.append_nil, List.nil_append,
    List.cons_append, List.append_assoc, List.isEmpty_cons, List.isEmpty_nil,
    Bool.false_eq_true, if_false, if_true]

/-- The member list of the parsed payload object. -/
def paymentMembers (nm hex : List Char) : List (List Char × Json) :=
  [("x402Version".data, .num 1),
   ("scheme".data, .str "exact".data),
   ("network".data, .str nm),
   ("payload".data, .obj [("transaction".data, .str hex)])]

theorem paymentFlat_ascii (nm hex : List Char) (hnm : ∀ c ∈ nm, c.toNat < 128)
    (hhex : ∀ c ∈ hex, c.toNat < 128) : ∀ c ∈ paymentFlat nm hex, c.toNat < 128 := by
  intro c hc
  simp only [paymentFlat, List.mem_append] at hc
  rcases hc with ((((hc | hc) | hc) | hc) | hc)
  · exact (by decide : ∀ x ∈ paymentPrefix, Char.toNat x < 128) c hc
  · exact hnm c hc
  · exact (by decide : ∀ x ∈ paymentMid, Char.toNat x < 128) c hc
  · exact hhex c hc
  · exact (by decide : ∀ x ∈ paymentSuffix, Char.toNat x < 128) c hc

theorem jsonParse_payment (nm hex : List Char)
    (hnm : ∀ c ∈ nm, plainChar c) (hhex : ∀ c ∈ hex, plainChar c) :
    jsonParse (paymentFlat nm hex) = some (Json.obj (paymentMembers nm hex)) := by
  unfold jsonParse
  obtain ⟨g, hg⟩ : ∃ g, (paymentFlat nm hex).length + 1 = g + 8 :=
    ⟨(paymentFlat nm hex).length - 7, by
      have h7 : 7 ≤ paymentPrefix.length := by decide
      have : paymentPrefix.length ≤ (paymentFlat nm hex).length := by
        simp [paymentFlat]
      omega⟩
  rw [hg, paymentFlat_cons, parseValue_payment g nm hex [] hnm hhex]
  rfl

/-- Hexadecimal digits (0-9, a-f, A-F), stated over character codes. -/
def isHexChar (c : Char) : Prop :=
  (48 ≤ c.toNat ∧ c.toNat ≤ 57) ∨ (97 ≤ c.toNat ∧ c.toNat ≤ 102) ∨
    (65 ≤ c.toNat ∧ c.toNat ≤ 70)

instance isHexCharDecidable : DecidablePred isHexChar := fun c => by
  unfold isHexChar
  infer_instance

theorem hexChar_plain (c : Char) (h : isHexChar c) : plainChar c := by
  refine ⟨?_, ?_, ?_⟩
  · intro he; subst he; revert h; decide
  · intro he; subst he; revert h; decide
  · rcases h with ⟨h1, _⟩ | ⟨h1, _⟩ | ⟨h1, _⟩ <;> omega

theorem hexChar_ascii (c : Char) (h : isHexChar c) : c.toNat < 128 := by
  rcases h with ⟨_, h2⟩ | ⟨_, h2⟩ | ⟨_, h2⟩ <;> omega

theorem extract_roundtrip_aux (hex : String) (net : Network) (nm : List Char)
    (hnmval : (if net = Network.testnet then "bsv-testnet".data else "bsv-mainnet".data) = nm)
    (hnmplain : ∀ c ∈ nm, plainChar c) (hnmascii : ∀ c ∈ nm, c.toNat < 128)
    (hnmne : nm.isEmpty = false)
    (hplain : ∀ c ∈ hex.data, plainChar c) (hascii : ∀ c ∈ hex.data, c.toNat < 128) :
    extractTransactionFromPayload (createPaymentPayloadFromHex hex net none) =
      .ok (some (Json.str hex.data)) := by
  have hparse : parsePaymentPayload (createPaymentPayloadFromHex hex net none) =
      .ok (Json.obj (paymentMembers nm hex.data)) := by
    unfold parsePaymentPayload createPaymentPayloadFromHex
    rw [render_payment hex net hplain, hnmval]
    rw [base64_roundtrip _ (utf8Encode_lt_256 _ (paymentFlat_ascii nm hex.data hnmascii hascii))]
    rw [utf8_ascii_roundtrip _ (paymentFlat_ascii nm hex.data hnmascii hascii)]
    rw [jsonParse_payment nm hex.data hnmplain hplain]
    dsimp only
    have g1 : jsGet (paymentMembers nm hex.data) "x402Version".data = some (.num 1) := rfl
    have g2 : jsGet (paymentMembers nm hex.data) "scheme".data =
      some (.str "exact".data) := rfl
    have g3 : jsGet (paymentMembers nm hex.data) "network".data = some (.str nm) := rfl
    have g4 : jsGet (paymentMembers nm hex.data) "payload".data =
      some (.obj [("transaction".data, .str hex.data)]) := rfl
    have t1 : jsTruthy (some (Json.num 1)) = true := by
      simp only [jsTruthy, decide_eq_true_eq]
      norm_num
    have t3 : jsTruthy (some (Json.str nm)) = true := by
      simp [jsTruthy, hnmne]
    rw [if_pos (by rw [g1, g2, g3, g4, t1, t3]; rfl)]
  unfold extractTransactionFromPayload
  rw [hparse]
  dsimp only
  have g4 : jsGet (paymentMembers nm hex.data) "payload".data =
      some (.obj [("transaction".data, .str hex.data)]) := rfl
  rw [g4]
  dsimp only
  rfl

end Codec

/-- Claim C3: for every valid transaction hex string (characters 0-9, a-f,
A-F) and both supported networks, extracting the transaction from the
encoded payment-proof envelope returns the very string that was encoded,
byte-identical including letter case:
`extractTransactionFromPayload (createPaymentPayloadFromHex hex net)` yields
exactly the JavaScript string `hex`. -/
theorem claim_C3_extract_roundtrip :
    ∀ (hex : String) (net : Codec.Network),
      (∀ c ∈ hex.data, Codec.isHexChar c) →
      Codec.extractTransactionFromPayload (Codec.createPaymentPayloadFromHex hex net none) =
        .ok (some (Codec.Json.str hex.data)) := by
  intro hex net hhex
  have hplain : ∀ c ∈ hex.data, Codec.plainChar c :=
    fun c hc => Codec.hexChar_plain c (hhex c hc)
  have hascii : ∀ c ∈ hex.data, c.toNat < 128 :=
    fun c hc => Codec.hexChar_ascii c (hhex c hc)
  cases net with
  | mainnet =>
      exact Codec.extract_roundtrip_aux hex _ "bsv-mainnet".data rfl (by decide) (by decide)
        (by decide) hplain hascii
  | testnet =>
      exact Codec.extract_roundtrip_aux hex _ "bsv-testnet".data rfl (by decide) (by decide)
        (by decide) hplain hascii

/-- Witness for claim C3 at a concrete mixed-case hex string on testnet. -/
theorem claim_C3_witness :
    Codec.extractTransactionFromPayload
        (Codec.createPaymentPayloadFromHex "0100AbCdEf00ac00000000" Codec.Network.testnet none) =
      .ok (some (Codec.Json.str "0100AbCdEf00ac00000000".data)) :=
  claim_C3_extract_roundtrip "0100AbCdEf00ac00000000" Codec.Network.testnet (by decide)

namespace Vault

/-- `SCRYPT_PARAMS` from the vault module (unnamed part_004). -/
structure ScryptParams where
  N : Nat
  r : Nat
  p : Nat
  keyLen : Nat
deriving DecidableEq, Repr

def SCRYPT_PARAMS : ScryptParams := ⟨32768, 8, 1, 32⟩

/-- The cost options of a Node `crypto.scrypt` call. -/
structure ScryptOptions where
  N : Nat
  r : Nat
  p : Nat
deriving DecidableEq, Repr

/-- Node's documented defaults for `crypto.scrypt` when the optional options
argument is omitted: `N = 16384, r = 8, p = 1`. -/
def nodeScryptDefaults : ScryptOptions := ⟨16384, 8, 1⟩

/-- One invocation of `crypto.scrypt`: positional arguments plus the
optional options object (`none` when the call passes only three arguments). -/
structure ScryptCall where
  password : String
  salt : List Nat
  keylen : Nat
  options : Option ScryptOptions

/-- The cost parameters Node actually uses for a call. -/
def effectiveOptions (c : ScryptCall) : ScryptOptions := c.options.getD nodeScryptDefaults

/-- `deriveKey` from the vault module: it invokes
`scryptAsync(password, salt, SCRYPT_PARAMS.keyLen)` — three arguments and
no options object, despite the comment claiming N, r, p are passed as the
fourth parameter. -/
def deriveKeyCall (password : String) (salt : List Nat) : ScryptCall :=
  ⟨password, salt, SCRYPT_PARAMS.keyLen, none⟩

/-- Model of the external scrypt primitive: an unspecified deterministic
function of the full call (password, salt, key length and effective cost
options); only its determinism is relied upon. -/
def scryptModel (call : ScryptCall) : Nat :=
  call.password.data.foldl (fun a c => a * 31 + c.toNat) 7 +
    call.salt.foldl (fun a b => a * 131 + b) 0 * 1000003 +
    (effectiveOptions call).N * 37 + call.keylen

def ALGORITHM : String := "aes-256-gcm"

/-- The message of the error `decryptWif` maps authentication failures to. -/
def authFailMsg : String := "Password incorrecto o datos corruptos"

/-- The message Node's GCM decipher throws when the authentication tag does
not verify. -/
def nodeGcmAuthError : String := "Unsupported state or unable to authenticate data"

/-- Model of the AES-256-GCM authentication tag over key, IV and
ciphertext: an unspecified deterministic function. -/
def gcmTagModel (key : Nat) (iv ct : List Nat) : List Nat :=
  [(key + iv.foldl (fun a b => a * 33 + b) 5 + ct.foldl (fun a b => a * 65 + b) 11) % 256]

/-- Model of the AES-256-GCM keystream decryption (inverse of an additive
stream model). -/
def gcmDecModel (key : Nat) (ct : List Nat) : List Nat :=
  ct.map (fun b => (b + 256 - key % 256) % 256)

/-- Model of authenticated AES-256-GCM decryption: the plaintext is
produced only when the supplied tag authenticates; otherwise the primitive
reports failure (Node throws `nodeGcmAuthError`). -/
def gcmOpenModel (key : Nat) (iv ct tag : List Nat) : Option (List Nat) :=
  if tag = gcmTagModel key iv ct then some (gcmDecModel key ct) else none

/-- `EncryptedData` from `src/types/index.ts` (all fields base64 text). -/
structure EncryptedData where
  algorithm : String
  salt : String
  iv : String
  authTag : String
  data : String
deriving DecidableEq, Repr

/-- The try-block of `decryptWif`: validate the algorithm tag, base64-decode
the fields, derive the key, and run the authenticated decryption; errors are
the thrown messages. -/
def decryptWifBody (encrypted : EncryptedData) (password : String) :
    Except String (List Nat) :=
  if encrypted.algorithm ≠ ALGORITHM then
    .error ("Algoritmo no soportado: " ++ encrypted.algorithm)
  else
    match gcmOpenModel
        (scryptModel (deriveKeyCall password (Codec.base64Decode encrypted.salt.data)))
        (Codec.base64Decode encrypted.iv.data) (Codec.base64Decode encrypted.data.data)
        (Codec.base64Decode encrypted.authTag.data) with
    | some plain => .ok plain
    | none => .error nodeGcmAuthError

/-- `decryptWif`: run the body; the catch block classifies any thrown
message containing "Unsupported state", "auth" or "TAG" as the
authentication failure and wraps everything else generically. -/
def decryptWif (encrypted : EncryptedData) (password : String) : Except String String :=
  match decryptWifBody encrypted password with
  | .ok plain => .ok (String.mk (Codec.utf8Decode plain))
  | .error msg =>
      if NetClient.strIncludes msg "Unsupported state" || NetClient.strIncludes msg "auth" ||
          NetClient.strIncludes msg "TAG" then
        .error authFailMsg
      else .error ("Error al desencriptar WIF: " ++ msg)

end Vault

/-- Claim C1 (code bug): `deriveKey` passes only password, salt and
`SCRYPT_PARAMS.keyLen` to Node's scrypt and omits the options object, so
every `encryptWif`/`decryptWif` key derivation runs with Node's default
cost factor N = 16384 — not the declared `SCRYPT_PARAMS.N = 32768` — while
r = 8, p = 1 and the 256-bit output length do hold. -/
theorem claim_C1_scrypt_cost_not_passed :
    ∀ (pw : String) (salt : List Nat),
      (Vault.deriveKeyCall pw salt).options = none ∧
      Vault.effectiveOptions (Vault.deriveKeyCall pw salt) = Vault.nodeScryptDefaults ∧
      (Vault.effectiveOptions (Vault.deriveKeyCall pw salt)).N = 16384 ∧
      (Vault.deriveKeyCall pw salt).keylen = Vault.SCRYPT_PARAMS.keyLen ∧
      Vault.SCRYPT_PARAMS.N = 32768 ∧
      (Vault.effectiveOptions (Vault.deriveKeyCall pw salt)).N ≠ Vault.SCRYPT_PARAMS.N := by
  intro pw salt
  refine ⟨rfl, rfl, rfl, rfl, rfl, ?_⟩
  intro h
  simp [Vault.effectiveOptions, Vault.deriveKeyCall, Vault.nodeScryptDefaults,
    Vault.SCRYPT_PARAMS] at h

/-- Claim C8: whenever the authenticated decryption fails — as it does,
under the AEAD model, for a wrong passphrase (different derived key) or a
tampered ciphertext or tag — `decryptWif` fails with exactly the
AuthenticationFailed error ("Password incorrecto o datos corruptos"), never
a generic crypto error and never a string; conversely any string it returns
is the complete plaintext of a decryption whose tag authenticated, so no
partial plaintext is ever returned. -/
theorem claim_C8_decrypt_authentication :
    (∀ (e : Vault.EncryptedData) (pw : String),
      e.algorithm = Vault.ALGORITHM →
      Vault.gcmOpenModel
        (Vault.scryptModel (Vault.deriveKeyCall pw (Codec.base64Decode e.salt.data)))
        (Codec.base64Decode e.iv.data) (Codec.base64Decode e.data.data)
        (Codec.base64Decode e.authTag.data) = none →
      Vault.decryptWif e pw = .error Vault.authFailMsg) ∧
    (∀ (e : Vault.EncryptedData) (pw s : String),
      Vault.decryptWif e pw = .ok s →
      e.algorithm = Vault.ALGORITHM ∧
      ∃ plain,
        Vault.gcmOpenModel
          (Vault.scryptModel (Vault.deriveKeyCall pw (Codec.base64Decode e.salt.data)))
          (Codec.base64Decode e.iv.data) (Codec.base64Decode e.data.data)
          (Codec.base64Decode e.authTag.data) = some plain ∧
        s = String.mk (Codec.utf8Decode plain)) := by
  constructor
  · intro e pw halg hfail
    unfold Vault.decryptWif Vault.decryptWifBody
    rw [if_neg (by simp [halg])]
    rw [hfail]
    dsimp only
    rw [if_pos (by decide)]
  · intro e pw s hok
    unfold Vault.decryptWif Vault.decryptWifBody at hok
    by_cases halg : e.algorithm ≠ Vault.ALGORITHM
    · rw [if_pos halg] at hok
      dsimp only at hok
      split at hok <;> simp_all
    · rw [if_neg halg] at hok
      push_neg at halg
      cases hbody : Vault.gcmOpenModel
          (Vault.scryptModel (Vault.deriveKeyCall pw (Codec.base64Decode e.salt.data)))
          (Codec.base64Decode e.iv.data) (Codec.base64Decode e.data.data)
          (Codec.base64Decode e.authTag.data) with
      | some plain =>
          rw [hbody] at hok
          dsimp only at hok
          exact ⟨halg, plain, rfl, by
            simpa using (Except.ok.inj hok).symm⟩
      | none =>
          rw [hbody] at hok
          dsimp only at hok
          split at hok <;> exact Except.noConfusion hok

/-- Witness for claim C8: a record whose tag cannot authenticate under the
wrong passphrase yields exactly the AuthenticationFailed error. -/
theorem claim_C8_witness :
    Vault.decryptWif ⟨"aes-256-gcm", "", "", "", ""⟩ "wrong-password" =
      .error Vault.authFailMsg :=
  claim_C8_decrypt_authentication.1 ⟨"aes-256-gcm", "", "", "", ""⟩ "wrong-password" rfl
    (by decide)
